import Mathlib

/-!
Verification development for the interactive-mcp repository.

This file gives a shallow embedding of the core routing/pairing logic:

* `src/interactive-mcp-server/src/path-utils.ts` — workspace path
  normalization and matching (`normalizeWorkspacePath`,
  `areWorkspacePathsRelated`);
* `src/shared-router/src/router.ts` — the broker (`SharedRouter`):
  registration, pairing, request/response routing, disconnection,
  orphan sweep;
* the VS Code extension (responder side) — the `ConnectionStateMachine`
  and the message queue (`queueMessage` / `processMessageQueue`).

Modelling conventions:
* the platform is modelled as linux (`process.platform !== 'win32'`),
  so the Windows drive-letter branches of `normalizeWorkspacePath` are
  never taken;
* `fs.realpathSync` is modelled as an abstract function
  `FS.realpath : String → Option String` (`none` models a thrown
  error, e.g. ENOENT), a fixed filesystem state;
* `path.resolve` (POSIX flavour) is modelled at the path-component
  level: split on `'/'`, drop empty and `"."` components, let `".."`
  pop the previous component (discarded at the root), rejoin;
* JavaScript `Map`s are modelled as association lists in insertion
  order: `set` replaces in place or appends, `delete` filters;
* JavaScript objects held by reference in several maps (the broker's
  `ClientInfo`) are modelled through an explicit heap
  (`RouterState.heap`) addressed by `Nat` references, so that field
  mutation through one alias is visible through all others;
* WebSocket handles are modelled as `Nat` ids; `sendMessage` is
  modelled as recording `(recipient ws id, message)` in an outbox
  (the `readyState === OPEN` guard and try/catch around sends are
  elided: all modelled sockets are open);
* timer-driven side effects (`setTimeout`, process cleanup, logging)
  are modelled only insofar as they change the modelled state: the
  pairing timeout becomes an `armed` flag, log lines are dropped.
-/

/-! ## Path utilities (`path-utils.ts`) -/

/-- Abstract filesystem state: `realpath q = some r` models
`fs.realpathSync(q)` returning `r`; `none` models it throwing
(e.g. the path does not exist). -/
structure FS where
  realpath : String → Option String

/-- The filesystem in which every `realpathSync` call throws
(no path exists / resolution always fails), the fallback branch of
`normalizeWorkspacePath`. -/
def FS.trivialFS : FS := ⟨fun _ => none⟩

/-- Split a character list on `'/'` (the groups between separators,
like JavaScript `"…".split('/')`). -/
def splitSlash : List Char → List (List Char)
  | [] => [[]]
  | c :: rest =>
    if c = '/' then [] :: splitSlash rest
    else
      match splitSlash rest with
      | g :: gs => (c :: g) :: gs
      | [] => [[c]]

/-- Join path components with `'/'` separators. -/
def joinSlash : List (List Char) → List Char
  | [] => []
  | [c] => c
  | c :: rest => c ++ '/' :: joinSlash rest

/-- Normalization of path components as done by Node's
`path.posix.resolve` on an absolute path: empty components and `"."`
are dropped, `".."` pops the previous component (and is discarded at
the root).  `acc` holds the already-processed components in reverse. -/
def normComps : List (List Char) → List (List Char) → List (List Char)
  | [], acc => acc.reverse
  | c :: rest, acc =>
    if c = [] ∨ c = ['.'] then normComps rest acc
    else if c = ['.', '.'] then normComps rest (acc.drop 1)
    else normComps rest (c :: acc)

/-- Model of Node `path.posix.resolve(workspacePath)`: make the path
absolute against `cwd` (`process.cwd()`), then normalize the
components.  The result always starts with `'/'` and never ends with
`'/'` unless it is exactly `"/"`. -/
def resolvePosix (cwd p : String) : String :=
  let full := if p.data.head? = some '/' then p.data else cwd.data ++ '/' :: p.data
  String.mk ('/' :: joinSlash (normComps (splitSlash full) []))

/-- `normalized.replace(/\\/g, '/')`. -/
def replaceBackslash (s : String) : String :=
  String.mk (s.data.map fun c => if c = '\\' then '/' else c)

/-- `if (normalized.length > 1 && normalized.endsWith('/')) slice(0, -1)`. -/
def stripTrailing (s : String) : String :=
  if 1 < s.data.length ∧ s.data.getLast? = some '/' then String.mk s.data.dropLast else s

/-- Embedding of `normalizeWorkspacePath` from `path-utils.ts`
(linux platform: the two `process.platform === 'win32'` branches are
skipped).  An empty path is returned unchanged; otherwise the path is
resolved to an absolute path, backslashes become forward slashes,
symlinks are resolved when `realpathSync` succeeds (keeping the
unresolved form when it throws), and a single trailing slash is
stripped. -/
def normalizeWorkspacePath (fs : FS) (cwd : String) (workspacePath : String) : String :=
  if workspacePath = "" then ""
  else
    let normalized := replaceBackslash (resolvePosix cwd workspacePath)
    let normalized :=
      match fs.realpath normalized with
      | some realPath => replaceBackslash realPath
      | none => normalized
    stripTrailing normalized

/-- JavaScript `longer.startsWith(shorter + '/')`, on the character
lists of the strings. -/
def strStartsWith (s pre : String) : Bool :=
  pre.data.isPrefixOf s.data

/-- Embedding of `areWorkspacePathsEqual` from `path-utils.ts`. -/
def areWorkspacePathsEqual (fs : FS) (cwd p1 p2 : String) : Bool :=
  normalizeWorkspacePath fs cwd p1 = normalizeWorkspacePath fs cwd p2

/-- Embedding of `areWorkspacePathsRelated` from `path-utils.ts`:
exact match after normalization, or the shorter normalized path
followed by `'/'` is a prefix of the longer one. -/
def areWorkspacePathsRelated (fs : FS) (cwd p1 p2 : String) : Bool :=
  let normalized1 := normalizeWorkspacePath fs cwd p1
  let normalized2 := normalizeWorkspacePath fs cwd p2
  if normalized1 = normalized2 then true
  else
    let shorter := if normalized1.data.length < normalized2.data.length then normalized1 else normalized2
    let longer := if normalized1.data.length < normalized2.data.length then normalized2 else normalized1
    strStartsWith longer (shorter ++ "/")

/-! ## Association lists: JavaScript `Map`s in insertion order -/

/-- `map.get(k)`. -/
def alGet {κ α : Type} [DecidableEq κ] (k : κ) : List (κ × α) → Option α
  | [] => none
  | (k', v) :: rest => if k' = k then some v else alGet k rest

/-- `map.set(k, v)`: replaces an existing entry in place (JavaScript
`Map.set` keeps the original insertion position), otherwise appends. -/
def alSet {κ α : Type} [DecidableEq κ] (k : κ) (v : α) : List (κ × α) → List (κ × α)
  | [] => [(k, v)]
  | (k', v') :: rest => if k' = k then (k, v) :: rest else (k', v') :: alSet k v rest

/-- `map.delete(k)`. -/
def alDel {κ α : Type} [DecidableEq κ] (k : κ) (l : List (κ × α)) : List (κ × α) :=
  l.filter fun e => decide (e.1 ≠ k)

/-! ## The broker (`SharedRouter`, `router.ts`) -/

/-- `clientType` of a peer: `'mcp-server'` (requester side) or
`'vscode-extension'` (responder side). -/
inductive ClientType
  | mcpServer
  | vscodeExtension
deriving DecidableEq, Repr

/-- `ClientInfo`: one registered peer.  `ws` is the WebSocket handle
(a `Nat` id in the model). -/
structure ClientInfo where
  ws : Nat
  clientType : ClientType
  workspaceId : String
  sessionId : String
  connectedAt : Nat
deriving DecidableEq, Repr

/-- `WorkspaceMapping`: the two optional sides of a pairing, stored as
heap references to the shared `ClientInfo` objects. -/
structure WorkspaceMapping where
  mcpClient : Option Nat := none
  vscodeClient : Option Nat := none
deriving DecidableEq, Repr

/-- One entry of `pendingRequests`.  The `resolve`/`reject` closures of
the source capture the requester's WebSocket and the request id; the
model keeps the captured ws id (`requesterWs`) so that resolving sends
to it. -/
structure PendingRequest where
  requesterWs : Nat
  sourceWorkspace : String
deriving DecidableEq, Repr

/-- The broker's mutable registry.  `heap`/`nextRef` model the
JavaScript object store: `ClientInfo` objects are shared by reference
between `clients`, the unmatched pools and `workspaces`, and mutating
a field through one alias is visible through all. -/
structure RouterState where
  heap : List (Nat × ClientInfo)
  nextRef : Nat
  clients : List (Nat × Nat)
  workspaces : List (String × WorkspaceMapping)
  unmatchedMcpServers : List (String × Nat)
  unmatchedVscodeClients : List (String × Nat)
  pendingRequests : List (String × PendingRequest)
deriving DecidableEq, Repr

/-- The empty broker registry (a freshly constructed `SharedRouter`). -/
def RouterState.initial : RouterState :=
  { heap := [], nextRef := 0, clients := [], workspaces := [],
    unmatchedMcpServers := [], unmatchedVscodeClients := [], pendingRequests := [] }

/-- Messages the broker sends (`RouterMessage`, restricted to the
fields each `type` actually carries).  `errorReply` is `sendError`'s
`{type: 'response', payload: {error}}`. -/
inductive Msg
  | registerAck (sessionId workspaceId : String)
  | syncRequest (vscodeWorkspace vscodeSessionId mcpWorkspace mcpSessionId : String)
  | syncComplete (finalWorkspace mcpSessionId vscodeSessionId : String)
  | request (requestId inputType options : String)
  | response (requestId response : String)
  | errorReply (error : String)
  | heartbeat
deriving DecidableEq, Repr

/-- `this.clients.get(ws)` dereferenced through the heap. -/
def lookupClient (s : RouterState) (ws : Nat) : Option ClientInfo :=
  (alGet ws s.clients).bind fun r => alGet r s.heap

/-- `this.clients.get(ws)` returning the heap reference as well. -/
def lookupClientRef (s : RouterState) (ws : Nat) : Option (Nat × ClientInfo) :=
  (alGet ws s.clients).bind fun r => (alGet r s.heap).map fun ci => (r, ci)

/-- `failPendingRequestsForWorkspace(workspaceId)`: reject (with
`'VS Code extension disconnected'`, wrapped by the stored `reject`
closure into a `Request failed: …` error reply to the requester's ws)
and delete every pending request whose `sourceWorkspace` equals
`workspaceId`. -/
def failPendingRequestsForWorkspace (s : RouterState) (workspaceId : String) :
    RouterState × List (Nat × Msg) :=
  let toFail := s.pendingRequests.filter fun e => decide (e.2.sourceWorkspace = workspaceId)
  let msgs := toFail.map fun e =>
    (e.2.requesterWs, Msg.errorReply "Request failed: VS Code extension disconnected")
  ({ s with pendingRequests :=
      s.pendingRequests.filter fun e => decide (e.2.sourceWorkspace ≠ workspaceId) }, msgs)

/-- `handleDisconnection(ws)`: remove the peer from `clients` and its
kind's unmatched pool; if its workspace has a mapping, move the
partner (the opposite side, when present) back into the partner's
unmatched pool and delete the peer's own side of the mapping, dropping
the mapping if both sides are now absent; finally fail all pending
requests of the peer's workspace. -/
def handleDisconnection (s : RouterState) (ws : Nat) : RouterState × List (Nat × Msg) :=
  match lookupClientRef s ws with
  | none => (s, [])
  | some (_, ci) =>
    let s1 := { s with clients := alDel ws s.clients }
    let s2 :=
      match ci.clientType with
      | ClientType.mcpServer =>
        { s1 with unmatchedMcpServers := alDel ci.sessionId s1.unmatchedMcpServers }
      | ClientType.vscodeExtension =>
        { s1 with unmatchedVscodeClients := alDel ci.sessionId s1.unmatchedVscodeClients }
    let s3 :=
      match alGet ci.workspaceId s2.workspaces with
      | none => s2
      | some wm =>
        let s' :=
          match ci.clientType with
          | ClientType.mcpServer =>
            let sPart :=
              match wm.vscodeClient with
              | some pref =>
                match alGet pref s2.heap with
                | some p =>
                  { s2 with unmatchedVscodeClients :=
                      (alSet p.sessionId pref s2.unmatchedVscodeClients) }
                | none => s2
              | none => s2
            { sPart with workspaces :=
                (alSet ci.workspaceId { wm with mcpClient := none } sPart.workspaces) }
          | ClientType.vscodeExtension =>
            let sPart :=
              match wm.mcpClient with
              | some pref =>
                match alGet pref s2.heap with
                | some p =>
                  { s2 with unmatchedMcpServers :=
                      (alSet p.sessionId pref s2.unmatchedMcpServers) }
                | none => s2
              | none => s2
            { sPart with workspaces :=
                (alSet ci.workspaceId { wm with vscodeClient := none } sPart.workspaces) }
        match alGet ci.workspaceId s'.workspaces with
        | some wm' =>
          if wm'.mcpClient = none ∧ wm'.vscodeClient = none then
            { s' with workspaces := alDel ci.workspaceId s'.workspaces }
          else s'
        | none => s'
    failPendingRequestsForWorkspace s3 ci.workspaceId

/-- `initiateWorkspaceCoordination(vscodeClient)`: called when a VS
Code extension registers (or signals `pairing-ready`).  Sends a
`workspace-sync-request` to **each unmatched MCP server's own socket**,
carrying the VS Code client's workspace/session and that MCP server's
workspace/session. -/
def initiateWorkspaceCoordination (s : RouterState) (vref : Nat) : List (Nat × Msg) :=
  match alGet vref s.heap with
  | none => []
  | some vsc =>
    if s.unmatchedMcpServers = [] then []
    else
      s.unmatchedMcpServers.filterMap fun e =>
        (alGet e.2 s.heap).map fun mcp =>
          (mcp.ws, Msg.syncRequest vsc.workspaceId vsc.sessionId mcp.workspaceId mcp.sessionId)

/-- `initiateWorkspaceCoordinationForMcp(mcpClient)`: called when an
MCP server registers.  For each unmatched VS Code client, sends a
`workspace-sync-request` **to the newly registered MCP server's own
socket** (`this.sendMessage(mcpClient.ws, …)` in the source), carrying
that VS Code client's workspace/session and the MCP server's
workspace/session. -/
def initiateWorkspaceCoordinationForMcp (s : RouterState) (mref : Nat) : List (Nat × Msg) :=
  match alGet mref s.heap with
  | none => []
  | some mcp =>
    if s.unmatchedVscodeClients = [] then []
    else
      s.unmatchedVscodeClients.filterMap fun e =>
        (alGet e.2 s.heap).map fun vsc =>
          (mcp.ws, Msg.syncRequest vsc.workspaceId vsc.sessionId mcp.workspaceId mcp.sessionId)

/-- `handleRegistration(ws, message)`: validate, normalize the
workspace id, pick the session id (`message.sessionId ||
generateSessionId()` — `genSid` stands for the generated id), run the
full disconnect path for any prior registration of the same socket,
create and register the new `ClientInfo`, add it to its kind's
unmatched pool, fire the opportunistic coordination for the opposite
pool, and acknowledge. -/
def handleRegistration (fs : FS) (cwd : String) (s : RouterState) (ws : Nat)
    (clientType : Option ClientType) (workspaceId : Option String)
    (sessionId? : Option String) (genSid : String) (now : Nat) :
    RouterState × List (Nat × Msg) :=
  match clientType, workspaceId with
  | some ct, some wid =>
    if wid = "" then
      (s, [(ws, Msg.errorReply "Missing clientType or workspaceId in registration")])
    else
      let normalizedWorkspaceId := normalizeWorkspacePath fs cwd wid
      let sessionId :=
        match sessionId? with
        | some sid => if sid = "" then genSid else sid
        | none => genSid
      let (s1, msgs0) := handleDisconnection s ws
      let ref := s1.nextRef
      let ci : ClientInfo :=
        { ws := ws, clientType := ct, workspaceId := normalizedWorkspaceId,
          sessionId := sessionId, connectedAt := now }
      let s2 := { s1 with
        heap := alSet ref ci s1.heap,
        nextRef := ref + 1,
        clients := alSet ws ref s1.clients }
      let (s3, msgs1) :=
        match ct with
        | ClientType.mcpServer =>
          let s' := { s2 with unmatchedMcpServers := alSet sessionId ref s2.unmatchedMcpServers }
          (s', initiateWorkspaceCoordinationForMcp s' ref)
        | ClientType.vscodeExtension =>
          let s' := { s2 with unmatchedVscodeClients := alSet sessionId ref s2.unmatchedVscodeClients }
          (s', initiateWorkspaceCoordination s' ref)
      (s3, msgs0 ++ msgs1 ++ [(ws, Msg.registerAck sessionId normalizedWorkspaceId)])
  | _, _ => (s, [(ws, Msg.errorReply "Missing clientType or workspaceId in registration")])

/-- `handleRequest(ws, message)`: only a registered MCP server with a
paired VS Code client for its workspace may submit; stores the
`PendingRequest` (capturing the requester's ws in the resolve/reject
closures) and forwards the request to the paired VS Code client's
socket.  `options = none` models a missing/falsy `message.options`. -/
def handleRequest (s : RouterState) (ws : Nat) (requestId inputType : String)
    (options : Option String) : RouterState × List (Nat × Msg) :=
  match lookupClient s ws with
  | none => (s, [(ws, Msg.errorReply "Client not registered")])
  | some ci =>
    if ci.clientType ≠ ClientType.mcpServer then
      (s, [(ws, Msg.errorReply "Only MCP servers can send requests")])
    else
      match (alGet ci.workspaceId s.workspaces).bind fun wm => wm.vscodeClient with
      | none => (s, [(ws, Msg.errorReply "No VS Code extension connected for this workspace")])
      | some vref =>
        if requestId = "" ∨ inputType = "" ∨ options = none then
          (s, [(ws, Msg.errorReply "Missing requestId, inputType, or options in request")])
        else
          let s' := { s with pendingRequests :=
            (alSet requestId
              { requesterWs := ws, sourceWorkspace := ci.workspaceId }
              s.pendingRequests) }
          match alGet vref s'.heap with
          | some vsc => (s', [(vsc.ws, Msg.request requestId inputType (options.getD ""))])
          | none => (s', [])

/-- `handleResponse(ws, message)`: only a registered VS Code extension
may respond; an unknown `requestId` or a workspace mismatch is ignored
with a warning (no state change, no reply); otherwise the pending
request is resolved — the payload is forwarded to the requester ws
captured at submission — and deleted. -/
def handleResponse (s : RouterState) (ws : Nat) (requestId response : String) :
    RouterState × List (Nat × Msg) :=
  match lookupClient s ws with
  | none => (s, [(ws, Msg.errorReply "Client not registered")])
  | some ci =>
    if ci.clientType ≠ ClientType.vscodeExtension then
      (s, [(ws, Msg.errorReply "Only VS Code extensions can send responses")])
    else if requestId = "" then
      (s, [(ws, Msg.errorReply "Missing requestId in response")])
    else
      match alGet requestId s.pendingRequests with
      | none => (s, [])
      | some pr =>
        if pr.sourceWorkspace ≠ ci.workspaceId then (s, [])
        else
          ({ s with pendingRequests := alDel requestId s.pendingRequests },
           [(pr.requesterWs, Msg.response requestId response)])

/-- `cleanupOrphanedRequests()` (the periodic orphan sweep): reject —
with `'Workspace no longer available'` — and delete every pending
request whose `sourceWorkspace` has no entry in `workspaces`. -/
def cleanupOrphanedRequests (s : RouterState) : RouterState × List (Nat × Msg) :=
  let orphaned := s.pendingRequests.filter fun e =>
    (alGet e.2.sourceWorkspace s.workspaces).isNone
  let msgs := orphaned.map fun e =>
    (e.2.requesterWs, Msg.errorReply "Request failed: Workspace no longer available")
  ({ s with pendingRequests := s.pendingRequests.filter fun e =>
      (alGet e.2.sourceWorkspace s.workspaces).isSome }, msgs)

/-- `handleWorkspaceSyncResponse(ws, message)`: on an accepted proposal
naming two still-unmatched sessions, commit the pairing: get-or-create
the `WorkspaceMapping` for `finalWorkspace` and set both of its sides,
mutate both shared `ClientInfo` objects' `workspaceId` to
`finalWorkspace`, delete both sessions from the unmatched pools, and
notify both peers with `workspace-sync-complete`.  Rejections, a
missing/empty `finalWorkspace`, or sessions no longer unmatched leave
the state unchanged.  The sender's socket is not consulted. -/
def handleWorkspaceSyncResponse (s : RouterState) (_ws : Nat)
    (vscodeSessionId mcpSessionId : String) (accepted : Bool) (finalWorkspace : String) :
    RouterState × List (Nat × Msg) :=
  if ¬accepted then (s, [])
  else if finalWorkspace = "" then (s, [])
  else
    match alGet mcpSessionId s.unmatchedMcpServers,
          alGet vscodeSessionId s.unmatchedVscodeClients with
    | some mref, some vref =>
      (match alGet mref s.heap, alGet vref s.heap with
       | some mcp, some vsc =>
         let wm := (alGet finalWorkspace s.workspaces).getD {}
         let wm' := { wm with mcpClient := some mref, vscodeClient := some vref }
         let s1 := { s with workspaces := alSet finalWorkspace wm' s.workspaces }
         let s2 := { s1 with heap :=
           (alSet vref { vsc with workspaceId := finalWorkspace }
             (alSet mref { mcp with workspaceId := finalWorkspace } s1.heap)) }
         let s3 := { s2 with
           unmatchedMcpServers := alDel mcpSessionId s2.unmatchedMcpServers,
           unmatchedVscodeClients := alDel vscodeSessionId s2.unmatchedVscodeClients }
         (s3, [(mcp.ws, Msg.syncComplete finalWorkspace mcpSessionId vscodeSessionId),
               (vsc.ws, Msg.syncComplete finalWorkspace mcpSessionId vscodeSessionId)])
       | _, _ => (s, []))
    | _, _ => (s, [])

/-! ## Responder connection state machine (VS Code extension) -/

/-- `ConnectionState`: `'DISCONNECTED' | 'STARTING' | 'CONNECTED' |
'READY' | 'ERROR'`.  The spec's `Paired` state is the source's
`READY`. -/
inductive ConnState
  | disconnected
  | starting
  | connected
  | ready
  | error
deriving DecidableEq, Repr, Fintype

/-- The `ConnectionStateMachine`'s mutable fields: the current state,
whether the pairing timeout is armed (`pairingTimeout !== undefined`),
and the two boolean locks. -/
structure StateMachine where
  currentState : ConnState
  pairingTimeoutArmed : Bool
  transitionMutex : Bool
  operationMutex : Bool
deriving DecidableEq, Repr, Fintype

/-- `isValidTransition(from, to)`: same-state transitions are always
allowed; otherwise the `validTransitions` table decides. -/
def isValidTransition (src dst : ConnState) : Bool :=
  if src = dst then true
  else
    match src with
    | ConnState.disconnected => dst = ConnState.starting ∨ dst = ConnState.error
    | ConnState.starting =>
        dst = ConnState.connected ∨ dst = ConnState.error ∨ dst = ConnState.disconnected
    | ConnState.connected =>
        dst = ConnState.ready ∨ dst = ConnState.error ∨ dst = ConnState.disconnected
    | ConnState.ready => dst = ConnState.disconnected ∨ dst = ConnState.error
    | ConnState.error =>
        dst = ConnState.starting ∨ dst = ConnState.disconnected ∨ dst = ConnState.ready

/-- `exitState(state)`: leaving `CONNECTED` clears the pairing
timeout; other states need no cleanup. -/
def exitState (sm : StateMachine) (state : ConnState) : StateMachine :=
  if state = ConnState.connected then { sm with pairingTimeoutArmed := false } else sm

/-- `enterState(state)`: entering `CONNECTED` arms the pairing
timeout.  Entering `ERROR` triggers external process cleanup
(`cleanupAfterError`), which does not touch the machine's own fields
and is not modelled. -/
def enterState (sm : StateMachine) (state : ConnState) : StateMachine :=
  if state = ConnState.connected then { sm with pairingTimeoutArmed := true } else sm

/-- `ConnectionStateMachine.transition(newState)`: dropped when a
transition is already executing (`transitionMutex`), rejected when the
transition is not in the table; otherwise the mutex is taken, the old
state is exited, the new state entered, and the mutex released. -/
def transition (sm : StateMachine) (newState : ConnState) : StateMachine :=
  if sm.transitionMutex then sm
  else if ¬isValidTransition sm.currentState newState then sm
  else
    let sm1 := { sm with transitionMutex := true }
    let sm2 := exitState sm1 sm1.currentState
    let sm3 := { sm2 with currentState := newState }
    let sm4 := enterState sm3 newState
    { sm4 with transitionMutex := false }

/-! ## Responder message queue (buffering & replay) -/

/-- Messages seen by the extension's socket handler (inbound from the
router) or sent by it (outbound).  `response rid payload` models
`{type: 'response', requestId, response}`; the immediate interim reply
sent while pairing carries the payload `"pairing_status"`. -/
inductive ExtMsg
  | request (requestId inputType : String)
  | response (requestId payload : String)
  | autoRetryTrigger (reason : String)
  | heartbeat
  | other (tag : String)
deriving DecidableEq, Repr

/-- `QueuedMessage`: a buffered message with its enqueue timestamp and
retry count. -/
structure QueuedMessage where
  message : ExtMsg
  timestamp : Nat
  retries : Nat
deriving DecidableEq, Repr

/-- `MAX_QUEUE_SIZE`. -/
def MAX_QUEUE_SIZE : Nat := 50

/-- `MAX_MESSAGE_RETRIES`. -/
def MAX_MESSAGE_RETRIES : Nat := 3

/-- The fixed TTL (30000 ms) after which a queued message is discarded
instead of delivered ("Skip messages that are too old"). -/
def MESSAGE_TTL_MS : Nat := 30000

/-- `queueMessage(message)`: bounded FIFO — when the queue is full the
oldest entry is shifted off the front, then the new entry is pushed
with `retries = 0`. -/
def queueMessage (q : List QueuedMessage) (m : ExtMsg) (now : Nat) : List QueuedMessage :=
  let q' := if MAX_QUEUE_SIZE ≤ q.length then q.drop 1 else q
  q' ++ [{ message := m, timestamp := now, retries := 0 }]

/-- The requestId field of an inbound request (empty for other
message shapes). -/
def extRequestId : ExtMsg → String
  | ExtMsg.request rid _ => rid
  | _ => ""

/-- Result of the extension handling one inbound `request` message:
the new queue, the messages sent back to the router, and the requests
delivered to `handleMcpRequest` (the presentation layer). -/
structure ExtHandleResult where
  queue : List QueuedMessage
  sent : List ExtMsg
  handled : List ExtMsg
deriving DecidableEq, Repr

/-- The `message.type === 'request'` branch of the extension's socket
message handler: while the state is `CONNECTED` (pairing still in
progress) the request is queued, an `auto-retry-trigger` is sent, and
an immediate interim `response` carrying the same `requestId` with a
`pairing_status` payload is sent; in any other state the request is
passed to `handleMcpRequest`. -/
def onRequestMessage (state : ConnState) (q : List QueuedMessage) (m : ExtMsg) (now : Nat) :
    ExtHandleResult :=
  if state = ConnState.connected then
    { queue := queueMessage q m now,
      sent := [ExtMsg.autoRetryTrigger "pairing-in-progress",
               ExtMsg.response (extRequestId m) "pairing_status"],
      handled := [] }
  else
    { queue := q, sent := [], handled := [m] }

/-- Result of draining the queue: requests delivered to
`handleMcpRequest`, outbound messages sent, entries re-queued for
retry (via `setTimeout`), and messages dropped after exhausting the
retry limit. -/
structure DrainResult where
  handled : List ExtMsg
  sent : List ExtMsg
  requeued : List QueuedMessage
  dropped : List ExtMsg
deriving DecidableEq, Repr

/-- The loop body of `processMessageQueue()` over the snapshot of the
queue (the queue itself is cleared first): entries older than the TTL
are skipped; inbound requests go to `handleMcpRequest` in order;
outbound messages are sent (`sendOk` models whether
`sendWebSocketMessage` succeeds), re-queued with `retries + 1` while
under `MAX_MESSAGE_RETRIES`, and dropped once the limit is reached. -/
def drainEntries (sendOk : ExtMsg → Bool) (now : Nat) : List QueuedMessage → DrainResult
  | [] => { handled := [], sent := [], requeued := [], dropped := [] }
  | e :: rest =>
    let r := drainEntries sendOk now rest
    if MESSAGE_TTL_MS < now - e.timestamp then r
    else
      match e.message with
      | ExtMsg.request rid it => { r with handled := ExtMsg.request rid it :: r.handled }
      | m =>
        if sendOk m then { r with sent := m :: r.sent }
        else if e.retries < MAX_MESSAGE_RETRIES then
          { r with requeued := { message := m, timestamp := e.timestamp,
                                 retries := e.retries + 1 } :: r.requeued }
        else { r with dropped := m :: r.dropped }

/-- `processMessageQueue()`: snapshot the queue, clear it, and process
the snapshot in submission order.  Called on socket open and from
`handleWorkspaceSyncComplete` (i.e. on reaching `READY`). -/
def processMessageQueue (sendOk : ExtMsg → Bool) (now : Nat) (q : List QueuedMessage) :
    DrainResult :=
  drainEntries sendOk now q

/-! ## Well-behaved filesystems and concrete broker traces -/

/-- A filesystem whose `realpath` behaves like a real one: the result
of a successful resolution is itself canonical — absolute and
component-normal (a fixed point of `resolvePosix`), free of
backslashes and of a trailing slash, and stable under a second
`realpath`.  Real filesystems satisfy this; the abstract
`FS.realpath` field does not force it. -/
def GoodFS (fs : FS) (cwd : String) : Prop :=
  ∀ q r, fs.realpath q = some r →
    fs.realpath r = some r ∧ replaceBackslash r = r ∧
    resolvePosix cwd r = r ∧ stripTrailing r = r

/-- Trace: an MCP server (requester) registers on socket 1 for
workspace `/w` with session `m1` against the empty broker. -/
def pairTrace1 : RouterState :=
  (handleRegistration FS.trivialFS "/" RouterState.initial 1
    (some ClientType.mcpServer) (some "/w") (some "m1") "g1" 0).1

/-- Trace: then a VS Code extension (responder) registers on socket 2
for workspace `/w` with session `v1`. -/
def pairTrace2 : RouterState :=
  (handleRegistration FS.trivialFS "/" pairTrace1 2
    (some ClientType.vscodeExtension) (some "/w") (some "v1") "g2" 0).1

/-- Trace: the MCP server accepts the sync proposal; the broker
commits the pairing of sessions `m1`/`v1` for final workspace `/w`. -/
def pairTrace3 : RouterState :=
  (handleWorkspaceSyncResponse pairTrace2 1 "v1" "m1" true "/w").1

/-- Trace: the paired requester submits request `r1`. -/
def pendingTrace : RouterState :=
  (handleRequest pairTrace3 1 "r1" "text" (some "opts")).1

/-- Trace: only a VS Code extension (responder) is registered, on
socket 1 for workspace `/w` with session `v1`; no requester yet. -/
def vscFirstTrace : RouterState :=
  (handleRegistration FS.trivialFS "/" RouterState.initial 1
    (some ClientType.vscodeExtension) (some "/w") (some "v1") "g1" 0).1

/-- Trace: an MCP server (requester) then registers on socket 2 while
the responder pool is non-empty; the pair is the post-state and the
messages this registration emits. -/
def mcpSecondReg : RouterState × List (Nat × Msg) :=
  handleRegistration FS.trivialFS "/" vscFirstTrace 2
    (some ClientType.mcpServer) (some "/w") (some "m1") "g2" 0

/-! ## Helper lemmas on association lists -/

theorem alGet_alSet_self {κ α : Type} [DecidableEq κ] (k : κ) (v : α) (l : List (κ × α)) :
    alGet k (alSet k v l) = some v := by
  induction l with
  | nil => simp [alGet, alSet]
  | cons e rest ih =>
    by_cases h : e.1 = k
    · simp [alSet, alGet, h]
    · obtain ⟨k', v'⟩ := e
      simp only at h
      simp [alSet, alGet, h, ih]

theorem alGet_alSet_ne {κ α : Type} [DecidableEq κ] {k k' : κ} (v : α) (l : List (κ × α))
    (h : k' ≠ k) : alGet k (alSet k' v l) = alGet k l := by
  induction l with
  | nil => simp [alGet, alSet, h]
  | cons e rest ih =>
    obtain ⟨k₀, v₀⟩ := e
    by_cases h0 : k₀ = k'
    · subst h0
      simp [alSet, alGet, h]
    · simp [alSet, alGet, h0, ih]

theorem alDel_cons {κ α : Type} [DecidableEq κ] (k k₀ : κ) (v₀ : α) (rest : List (κ × α)) :
    alDel k ((k₀, v₀) :: rest) =
      if k₀ = k then alDel k rest else (k₀, v₀) :: alDel k rest := by
  by_cases h : k₀ = k <;> simp [alDel, h]

theorem alGet_alDel_self {κ α : Type} [DecidableEq κ] (k : κ) (l : List (κ × α)) :
    alGet k (alDel k l) = none := by
  induction l with
  | nil => simp [alGet, alDel]
  | cons e rest ih =>
    obtain ⟨k₀, v₀⟩ := e
    rw [alDel_cons]
    by_cases h : k₀ = k
    · simp [h, ih]
    · simp [alGet, h, ih]

theorem alGet_alDel_ne {κ α : Type} [DecidableEq κ] {k k' : κ} (l : List (κ × α))
    (h : k' ≠ k) : alGet k (alDel k' l) = alGet k l := by
  induction l with
  | nil => simp [alGet, alDel]
  | cons e rest ih =>
    obtain ⟨k₀, v₀⟩ := e
    rw [alDel_cons]
    by_cases h0 : k₀ = k'
    · subst h0
      have hk : k₀ ≠ k := fun hh => h (hh ▸ rfl)
      simp [alGet, hk, ih]
    · by_cases h1 : k₀ = k
      · have hk : ¬k = k' := fun hh => h hh.symm
        simp [alGet, h0, h1, hk]
      · simp [alGet, h0, h1, ih]

/-! ## C6 — the responder state machine's transition relation -/

/-- C6: the responder state machine's transition relation is exactly
the table Disconnected → {Starting, Error}; Starting → {Connected,
Error, Disconnected}; Connected → {Paired, Error, Disconnected};
Paired → {Disconnected, Error}; Error → {Starting, Disconnected,
Paired} (the source spells the spec's `Paired` as `READY`); every
same-state request is accepted and leaves the state unchanged; every
request outside the table leaves the machine unchanged; and a request
made while another transition is executing (`transitionMutex` held)
is dropped, leaving the machine unchanged. -/
theorem C6_transition_table :
    (∀ s : ConnState, isValidTransition s s = true) ∧
    (∀ s t : ConnState, isValidTransition s t = true ↔
      (s = t ∨ (s, t) ∈ [
        (ConnState.disconnected, ConnState.starting),
        (ConnState.disconnected, ConnState.error),
        (ConnState.starting, ConnState.connected),
        (ConnState.starting, ConnState.error),
        (ConnState.starting, ConnState.disconnected),
        (ConnState.connected, ConnState.ready),
        (ConnState.connected, ConnState.error),
        (ConnState.connected, ConnState.disconnected),
        (ConnState.ready, ConnState.disconnected),
        (ConnState.ready, ConnState.error),
        (ConnState.error, ConnState.starting),
        (ConnState.error, ConnState.disconnected),
        (ConnState.error, ConnState.ready)])) ∧
    (∀ (sm : StateMachine) (t : ConnState),
      sm.transitionMutex = true → transition sm t = sm) ∧
    (∀ (sm : StateMachine) (t : ConnState),
      isValidTransition sm.currentState t = false → transition sm t = sm) ∧
    (∀ (sm : StateMachine) (t : ConnState),
      sm.transitionMutex = false → isValidTransition sm.currentState t = true →
        (transition sm t).currentState = t ∧ (transition sm t).transitionMutex = false) := by
  decide

/-- Witness for C6: concrete instances of each guarded statement —
a valid transition taken, an invalid one rejected, and a transition
dropped while the mutex is held. -/
theorem C6_transition_table_witness :
    (transition ⟨ConnState.connected, true, false, false⟩ ConnState.ready).currentState =
      ConnState.ready ∧
    transition ⟨ConnState.ready, false, false, false⟩ ConnState.connected =
      ⟨ConnState.ready, false, false, false⟩ ∧
    transition ⟨ConnState.starting, false, true, false⟩ ConnState.connected =
      ⟨ConnState.starting, false, true, false⟩ :=
  ⟨(C6_transition_table.2.2.2.2 ⟨ConnState.connected, true, false, false⟩ ConnState.ready
      (by decide) (by decide)).1,
   C6_transition_table.2.2.2.1 ⟨ConnState.ready, false, false, false⟩ ConnState.connected
      (by decide),
   C6_transition_table.2.2.1 ⟨ConnState.starting, false, true, false⟩ ConnState.connected
      (by decide)⟩

/-! ## C7 — buffering of inbound requests while pairing -/

/-- Helper: draining the queue delivers exactly the buffered requests
not older than the TTL, in submission order. -/
theorem drainEntries_handled (sendOk : ExtMsg → Bool) (now : Nat) (q : List QueuedMessage) :
    (drainEntries sendOk now q).handled =
      (q.filter fun e => decide (now - e.timestamp ≤ MESSAGE_TTL_MS)).filterMap
        (fun e => match e.message with
          | ExtMsg.request rid it => some (ExtMsg.request rid it)
          | _ => none) := by
  induction q with
  | nil => rfl
  | cons e rest ih =>
    by_cases hexp : MESSAGE_TTL_MS < now - e.timestamp
    · have hne : ¬(now - e.timestamp ≤ MESSAGE_TTL_MS) := by omega
      rw [List.filter_cons_of_neg (by simpa using hne)]
      rw [show drainEntries sendOk now (e :: rest) = drainEntries sendOk now rest from by
        simp [drainEntries, hexp]]
      exact ih
    · have hle : now - e.timestamp ≤ MESSAGE_TTL_MS := by omega
      rw [List.filter_cons_of_pos (by simpa using hle)]
      rw [List.filterMap_cons]
      obtain ⟨msg, ts, rc⟩ := e
      cases msg with
      | request rid it =>
        simp only [drainEntries, if_neg hexp]
        simpa using ih
      | response rid payload =>
        simp only [drainEntries, if_neg hexp]
        by_cases hok : sendOk (ExtMsg.response rid payload) = true
        · simpa [hok] using ih
        · by_cases hr : rc < MAX_MESSAGE_RETRIES
          · simpa [hok, hr] using ih
          · simpa [hok, hr] using ih
      | autoRetryTrigger reason =>
        simp only [drainEntries, if_neg hexp]
        by_cases hok : sendOk (ExtMsg.autoRetryTrigger reason) = true
        · simpa [hok] using ih
        · by_cases hr : rc < MAX_MESSAGE_RETRIES
          · simpa [hok, hr] using ih
          · simpa [hok, hr] using ih
      | heartbeat =>
        simp only [drainEntries, if_neg hexp]
        by_cases hok : sendOk ExtMsg.heartbeat = true
        · simpa [hok] using ih
        · by_cases hr : rc < MAX_MESSAGE_RETRIES
          · simpa [hok, hr] using ih
          · simpa [hok, hr] using ih
      | other tag =>
        simp only [drainEntries, if_neg hexp]
        by_cases hok : sendOk (ExtMsg.other tag) = true
        · simpa [hok] using ih
        · by_cases hr : rc < MAX_MESSAGE_RETRIES
          · simpa [hok, hr] using ih
          · simpa [hok, hr] using ih

/-- C7 counterexample: a request that arrives while the state is
`CONNECTED` (not yet `READY`/Paired) is queued, but it is answered
immediately: the handler's outbound messages include a `response`
carrying the request's own id (payload `pairing_status`), refuting
"is not answered until the state reaches Paired". -/
theorem C7_interim_response_counterexample :
    (onRequestMessage ConnState.connected [] (ExtMsg.request "r1" "text") 1000).queue =
      [{ message := ExtMsg.request "r1" "text", timestamp := 1000, retries := 0 }] ∧
    (onRequestMessage ConnState.connected [] (ExtMsg.request "r1" "text") 1000).handled = [] ∧
    ExtMsg.response "r1" "pairing_status" ∈
      (onRequestMessage ConnState.connected [] (ExtMsg.request "r1" "text") 1000).sent := by
  decide

/-- C7 (amended): a request arriving in `CONNECTED` is appended to the
bounded FIFO (oldest entry evicted past `MAX_QUEUE_SIZE`), is not
passed to `handleMcpRequest`, and an interim `response` carrying its
id with a `pairing_status` payload is sent immediately; outside
`CONNECTED` (in particular once `READY`/Paired) a request is handled
directly; and draining the queue processes it in submission order,
delivering to `handleMcpRequest` exactly the buffered requests not
older than the fixed TTL and discarding the expired ones. -/
theorem C7_request_buffering_amended :
    (∀ (q : List QueuedMessage) (m : ExtMsg) (now : Nat),
      (onRequestMessage ConnState.connected q m now).handled = [] ∧
      (onRequestMessage ConnState.connected q m now).queue =
        (if MAX_QUEUE_SIZE ≤ q.length then q.drop 1 else q) ++
          [{ message := m, timestamp := now, retries := 0 }] ∧
      (q.length ≤ MAX_QUEUE_SIZE →
        (onRequestMessage ConnState.connected q m now).queue.length ≤ MAX_QUEUE_SIZE) ∧
      ExtMsg.response (extRequestId m) "pairing_status" ∈
        (onRequestMessage ConnState.connected q m now).sent) ∧
    (∀ (q : List QueuedMessage) (m : ExtMsg) (now : Nat),
      onRequestMessage ConnState.ready q m now = ⟨q, [], [m]⟩) ∧
    (∀ (sendOk : ExtMsg → Bool) (now : Nat) (q : List QueuedMessage),
      (processMessageQueue sendOk now q).handled =
        (q.filter fun e => decide (now - e.timestamp ≤ MESSAGE_TTL_MS)).filterMap
          (fun e => match e.message with
            | ExtMsg.request rid it => some (ExtMsg.request rid it)
            | _ => none)) := by
  refine ⟨?_, ?_, ?_⟩
  · intro q m now
    refine ⟨rfl, rfl, ?_, ?_⟩
    · intro hlen
      show (queueMessage q m now).length ≤ MAX_QUEUE_SIZE
      have h50 : MAX_QUEUE_SIZE = 50 := rfl
      simp only [queueMessage, List.length_append, List.length_cons, List.length_nil]
      by_cases h : MAX_QUEUE_SIZE ≤ q.length
      · rw [if_pos h, List.length_drop]
        omega
      · rw [if_neg h]
        omega
    · simp [onRequestMessage]
  · intro q m now
    simp [onRequestMessage]
  · intro sendOk now q
    exact drainEntries_handled sendOk now q

/-- Witness for C7 (amended): the bound at a queue already at
capacity, and a concrete drain keeping a fresh request while an
expired one is discarded. -/
theorem C7_request_buffering_amended_witness :
    ((List.replicate 50 ({ message := ExtMsg.heartbeat, timestamp := 0, retries := 0 } :
        QueuedMessage)).length ≤ MAX_QUEUE_SIZE →
      (onRequestMessage ConnState.connected
        (List.replicate 50 { message := ExtMsg.heartbeat, timestamp := 0, retries := 0 })
        (ExtMsg.request "r1" "text") 7).queue.length ≤ MAX_QUEUE_SIZE) ∧
    (processMessageQueue (fun _ => true) 40000
      [{ message := ExtMsg.request "old" "text", timestamp := 0, retries := 0 },
       { message := ExtMsg.request "new" "text", timestamp := 20000, retries := 0 }]).handled =
      (([{ message := ExtMsg.request "old" "text", timestamp := 0, retries := 0 },
         { message := ExtMsg.request "new" "text", timestamp := 20000, retries := 0 }] :
            List QueuedMessage).filter fun e =>
            decide (40000 - e.timestamp ≤ MESSAGE_TTL_MS)).filterMap
          (fun e => match e.message with
            | ExtMsg.request rid it => some (ExtMsg.request rid it)
            | _ => none) :=
  ⟨(C7_request_buffering_amended.1
      (List.replicate 50 { message := ExtMsg.heartbeat, timestamp := 0, retries := 0 })
      (ExtMsg.request "r1" "text") 7).2.2.1,
   C7_request_buffering_amended.2.2 (fun _ => true) 40000
      [{ message := ExtMsg.request "old" "text", timestamp := 0, retries := 0 },
       { message := ExtMsg.request "new" "text", timestamp := 20000, retries := 0 }]⟩

/-! ## C8 — workspace path relatedness -/

/-- Helper: `List.isPrefixOf` characterized by an explicit suffix. -/
theorem isPrefixOf_iff_exists_append (l1 l2 : List Char) :
    l1.isPrefixOf l2 = true ↔ ∃ t, l2 = l1 ++ t := by
  induction l1 generalizing l2 with
  | nil => simp [List.isPrefixOf]
  | cons a as ih =>
    cases l2 with
    | nil => simp [List.isPrefixOf]
    | cons b bs =>
      simp only [List.isPrefixOf, Bool.and_eq_true, beq_iff_eq, ih, List.cons_append,
        List.cons.injEq]
      constructor
      · rintro ⟨rfl, t, rfl⟩
        exact ⟨t, rfl, rfl⟩
      · rintro ⟨t, rfl, rfl⟩
        exact ⟨rfl, t, rfl⟩

/-- Helper: `longer.startsWith(shorter + '/')` holds exactly when the
longer path extends the shorter one past a `'/'` boundary. -/
theorem strStartsWith_append_slash_iff (a b : String) :
    strStartsWith b (a ++ "/") = true ↔ ∃ t, b.data = a.data ++ '/' :: t := by
  rw [strStartsWith, isPrefixOf_iff_exists_append]
  constructor
  · rintro ⟨t, ht⟩
    refine ⟨t, ?_⟩
    rw [ht, String.data_append]
    simp
  · rintro ⟨t, ht⟩
    refine ⟨t, ?_⟩
    rw [ht, String.data_append]
    simp

/-- C8: for every pair of path strings, `areWorkspacePathsRelated` is
true iff, after normalization, the two are character-equal or one is a
path-prefix of the other ending at a directory boundary (one equals
the other followed by `'/'` and a suffix); and in particular
`related("/a/b", "/a/b/c") = true` while `related("/a/b", "/a/bc") =
false` (no boundary-free prefix match), on the filesystem where no
path resolves. -/
theorem C8_related_iff_boundary_match :
    (∀ (fs : FS) (cwd p q : String),
      areWorkspacePathsRelated fs cwd p q = true ↔
        (normalizeWorkspacePath fs cwd p = normalizeWorkspacePath fs cwd q ∨
         (∃ t, (normalizeWorkspacePath fs cwd q).data =
                (normalizeWorkspacePath fs cwd p).data ++ '/' :: t) ∨
         (∃ t, (normalizeWorkspacePath fs cwd p).data =
                (normalizeWorkspacePath fs cwd q).data ++ '/' :: t))) ∧
    areWorkspacePathsRelated FS.trivialFS "/" "/a/b" "/a/b/c" = true ∧
    areWorkspacePathsRelated FS.trivialFS "/" "/a/b" "/a/bc" = false := by
  refine ⟨?_, by decide, by decide⟩
  intro fs cwd p q
  simp only [areWorkspacePathsRelated]
  set n1 := normalizeWorkspacePath fs cwd p with hn1
  set n2 := normalizeWorkspacePath fs cwd q with hn2
  by_cases heq : n1 = n2
  · simp [heq]
  · rw [if_neg heq]
    by_cases hl : n1.data.length < n2.data.length
    · simp only [if_pos hl]
      rw [strStartsWith_append_slash_iff]
      constructor
      · rintro ⟨t, ht⟩
        exact Or.inr (Or.inl ⟨t, ht⟩)
      · rintro (h | ⟨t, ht⟩ | ⟨t, ht⟩)
        · exact absurd h heq
        · exact ⟨t, ht⟩
        · exfalso
          have hlen := congrArg List.length ht
          simp only [List.length_append, List.length_cons] at hlen
          omega
    · simp only [if_neg hl]
      rw [strStartsWith_append_slash_iff]
      constructor
      · rintro ⟨t, ht⟩
        exact Or.inr (Or.inr ⟨t, ht⟩)
      · rintro (h | ⟨t, ht⟩ | ⟨t, ht⟩)
        · exact absurd h heq
        · exfalso
          have hlen := congrArg List.length ht
          simp only [List.length_append, List.length_cons] at hlen
          omega
        · exact ⟨t, ht⟩

/-- Witness for C8: the characterization applied at a concrete
parent/child pair. -/
theorem C8_related_iff_boundary_match_witness :
    areWorkspacePathsRelated FS.trivialFS "/" "/a" "/a/b" = true :=
  (C8_related_iff_boundary_match.1 FS.trivialFS "/" "/a" "/a/b").mpr
    (Or.inr (Or.inl ⟨['b'], by decide⟩))

/-! ## C9 — normalization idempotence

Helper lemmas about `splitSlash` / `joinSlash` / `normComps`:
the components produced by `resolvePosix` are non-empty, free of
`'/'`, not `"."` or `".."`, and splitting its output recovers them. -/

theorem splitSlash_ne_nil (l : List Char) : splitSlash l ≠ [] := by
  induction l with
  | nil => simp [splitSlash]
  | cons c rest ih =>
    by_cases h : c = '/'
    · simp [splitSlash, h]
    · simp only [splitSlash, if_neg h]
      cases hs : splitSlash rest with
      | nil => simp
      | cons g gs => simp

theorem mem_splitSlash_no_slash {l : List Char} {g : List Char}
    (hg : g ∈ splitSlash l) : '/' ∉ g := by
  induction l generalizing g with
  | nil =>
    simp only [splitSlash, List.mem_singleton] at hg
    subst hg
    simp
  | cons c rest ih =>
    by_cases h : c = '/'
    · simp only [splitSlash, if_pos h, List.mem_cons] at hg
      rcases hg with rfl | hg
      · simp
      · exact ih hg
    · simp only [splitSlash, if_neg h] at hg
      cases hs : splitSlash rest with
      | nil => exact absurd hs (splitSlash_ne_nil rest)
      | cons g0 gs =>
        rw [hs] at hg
        simp only [List.mem_cons] at hg
        rcases hg with rfl | hg
        · intro hc
          rcases List.mem_cons.mp hc with rfl | hc
          · exact h rfl
          · exact ih (hs ▸ List.mem_cons_self g0 gs) hc
        · exact ih (hs ▸ List.mem_cons_of_mem g0 hg)

theorem mem_splitSlash_subset {l g : List Char} (hg : g ∈ splitSlash l) :
    ∀ c ∈ g, c ∈ l := by
  induction l generalizing g with
  | nil =>
    simp only [splitSlash, List.mem_singleton] at hg
    subst hg
    simp
  | cons ch rest ih =>
    by_cases h : ch = '/'
    · simp only [splitSlash, if_pos h, List.mem_cons] at hg
      rcases hg with rfl | hg
      · simp
      · exact fun c hc => List.mem_cons_of_mem ch (ih hg c hc)
    · simp only [splitSlash, if_neg h] at hg
      cases hs : splitSlash rest with
      | nil => exact absurd hs (splitSlash_ne_nil rest)
      | cons g0 gs =>
        rw [hs] at hg
        simp only [List.mem_cons] at hg
        rcases hg with rfl | hg
        · intro c hc
          rcases List.mem_cons.mp hc with rfl | hc
          · exact List.mem_cons_self _ _
          · exact List.mem_cons_of_mem _ (ih (hs ▸ List.mem_cons_self g0 gs) c hc)
        · exact fun c hc =>
            List.mem_cons_of_mem _ (ih (hs ▸ List.mem_cons_of_mem g0 hg) c hc)

theorem splitSlash_no_slash {l : List Char} (h : '/' ∉ l) : splitSlash l = [l] := by
  induction l with
  | nil => rfl
  | cons c rest ih =>
    have hc : c ≠ '/' := fun hh => h (hh ▸ List.mem_cons_self c rest)
    have hr : '/' ∉ rest := fun hh => h (List.mem_cons_of_mem c hh)
    simp only [splitSlash, if_neg hc, ih hr]

theorem splitSlash_append_no_slash {a l : List Char} (ha : '/' ∉ a)
    {g : List Char} {gs : List (List Char)} (hl : splitSlash l = g :: gs) :
    splitSlash (a ++ l) = (a ++ g) :: gs := by
  induction a with
  | nil => simpa using hl
  | cons c a' ih =>
    have hc : c ≠ '/' := fun hh => ha (hh ▸ List.mem_cons_self c a')
    have ha' : '/' ∉ a' := fun hh => ha (List.mem_cons_of_mem c hh)
    rw [List.cons_append]
    simp only [splitSlash, if_neg hc]
    rw [ih ha']
    rfl

theorem splitSlash_joinSlash {cs : List (List Char)} (hne : cs ≠ [])
    (hs : ∀ g ∈ cs, '/' ∉ g) : splitSlash (joinSlash cs) = cs := by
  induction cs with
  | nil => exact absurd rfl hne
  | cons c cs' ih =>
    cases cs' with
    | nil =>
      simp only [joinSlash]
      exact splitSlash_no_slash (hs c (List.mem_cons_self c []))
    | cons c2 rest =>
      have hjoin : joinSlash (c :: c2 :: rest) = c ++ '/' :: joinSlash (c2 :: rest) := rfl
      rw [hjoin]
      have hc : '/' ∉ c := hs c (List.mem_cons_self _ _)
      have hs' : ∀ g ∈ c2 :: rest, '/' ∉ g := fun g hg => hs g (List.mem_cons_of_mem c hg)
      have ihr : splitSlash (joinSlash (c2 :: rest)) = c2 :: rest := ih (by simp) hs'
      have hsplit : splitSlash ('/' :: joinSlash (c2 :: rest)) = [] :: c2 :: rest := by
        simp [splitSlash, ihr]
      have := splitSlash_append_no_slash hc hsplit
      simpa using this

theorem mem_normComps {gs acc : List (List Char)} {c : List Char}
    (hc : c ∈ normComps gs acc) :
    c ∈ acc ∨ (c ∈ gs ∧ c ≠ [] ∧ c ≠ ['.'] ∧ c ≠ ['.', '.']) := by
  induction gs generalizing acc with
  | nil =>
    simp only [normComps, List.mem_reverse] at hc
    exact Or.inl hc
  | cons g gs' ih =>
    by_cases h1 : g = [] ∨ g = ['.']
    · simp only [normComps, if_pos h1] at hc
      rcases ih hc with h | ⟨hm, hg⟩
      · exact Or.inl h
      · exact Or.inr ⟨List.mem_cons_of_mem g hm, hg⟩
    · by_cases h2 : g = ['.', '.']
      · simp only [normComps, if_neg h1, if_pos h2] at hc
        rcases ih hc with h | ⟨hm, hg⟩
        · exact Or.inl (List.drop_subset 1 acc h)
        · exact Or.inr ⟨List.mem_cons_of_mem g hm, hg⟩
      · simp only [normComps, if_neg h1, if_neg h2] at hc
        rcases ih hc with h | ⟨hm, hg⟩
        · rcases List.mem_cons.mp h with rfl | h
          · push_neg at h1
            exact Or.inr ⟨List.mem_cons_self _ _, h1.1, h1.2, h2⟩
          · exact Or.inl h
        · exact Or.inr ⟨List.mem_cons_of_mem g hm, hg⟩

theorem normComps_of_good {gs : List (List Char)}
    (hgood : ∀ c ∈ gs, c ≠ [] ∧ c ≠ ['.'] ∧ c ≠ ['.', '.']) (acc : List (List Char)) :
    normComps gs acc = acc.reverse ++ gs := by
  induction gs generalizing acc with
  | nil => simp [normComps]
  | cons g gs' ih =>
    obtain ⟨hne, hdot, hddot⟩ := hgood g (List.mem_cons_self _ _)
    have h1 : ¬(g = [] ∨ g = ['.']) := by
      rintro (h | h)
      exacts [hne h, hdot h]
    have hgood' : ∀ c ∈ gs', c ≠ [] ∧ c ≠ ['.'] ∧ c ≠ ['.', '.'] :=
      fun c hc => hgood c (List.mem_cons_of_mem g hc)
    simp only [normComps, if_neg h1, if_neg hddot, ih hgood']
    simp

theorem mem_joinSlash {cs : List (List Char)} {c : Char} (hc : c ∈ joinSlash cs) :
    c = '/' ∨ ∃ g ∈ cs, c ∈ g := by
  induction cs with
  | nil => simp [joinSlash] at hc
  | cons g cs' ih =>
    cases cs' with
    | nil =>
      simp only [joinSlash] at hc
      exact Or.inr ⟨g, List.mem_cons_self _ _, hc⟩
    | cons g2 rest =>
      have : joinSlash (g :: g2 :: rest) = g ++ '/' :: joinSlash (g2 :: rest) := rfl
      rw [this] at hc
      rcases List.mem_append.mp hc with h | h
      · exact Or.inr ⟨g, List.mem_cons_self _ _, h⟩
      · rcases List.mem_cons.mp h with rfl | h
        · exact Or.inl rfl
        · rcases ih h with h | ⟨g', hg', hcg⟩
          · exact Or.inl h
          · exact Or.inr ⟨g', List.mem_cons_of_mem g hg', hcg⟩

theorem joinSlash_ne_nil {cs : List (List Char)} (hne : cs ≠ [])
    (h : ∀ g ∈ cs, g ≠ []) : joinSlash cs ≠ [] := by
  cases cs with
  | nil => exact absurd rfl hne
  | cons g cs' =>
    cases cs' with
    | nil => exact h g (List.mem_cons_self _ _)
    | cons g2 rest =>
      have : joinSlash (g :: g2 :: rest) = g ++ '/' :: joinSlash (g2 :: rest) := rfl
      rw [this]
      simp

theorem joinSlash_getLast_ne_slash {cs : List (List Char)} (hne : cs ≠ [])
    (h : ∀ g ∈ cs, g ≠ [] ∧ '/' ∉ g) {x : Char}
    (hx : (joinSlash cs).getLast? = some x) : x ≠ '/' := by
  induction cs with
  | nil => exact absurd rfl hne
  | cons g cs' ih =>
    cases cs' with
    | nil =>
      simp only [joinSlash] at hx
      obtain ⟨hgne, hgx⟩ := List.mem_getLast?_eq_getLast (Option.mem_def.mpr hx)
      have : x ∈ g := hgx ▸ List.getLast_mem hgne
      exact fun hh => (h g (List.mem_cons_self _ _)).2 (hh ▸ this)
    | cons g2 rest =>
      have hj : joinSlash (g :: g2 :: rest) = g ++ '/' :: joinSlash (g2 :: rest) := rfl
      rw [hj] at hx
      rw [List.getLast?_append_of_ne_nil g (by simp)] at hx
      have hjoin_ne : joinSlash (g2 :: rest) ≠ [] :=
        joinSlash_ne_nil (by simp) (fun g' hg' => (h g' (List.mem_cons_of_mem g hg')).1)
      have hsplit : ('/' :: joinSlash (g2 :: rest)) = ['/'] ++ joinSlash (g2 :: rest) := rfl
      rw [hsplit, List.getLast?_append_of_ne_nil ['/'] hjoin_ne] at hx
      exact ih (by simp) (fun g' hg' => h g' (List.mem_cons_of_mem g hg')) hx

theorem resolvePosix_comps_good (cwd p : String) :
    ∀ g ∈ normComps (splitSlash (if p.data.head? = some '/' then p.data
        else cwd.data ++ '/' :: p.data)) [],
      (g ≠ [] ∧ g ≠ ['.'] ∧ g ≠ ['.', '.']) ∧ '/' ∉ g := by
  intro g hg
  rcases mem_normComps hg with h | ⟨hmem, hgood⟩
  · simp at h
  · exact ⟨hgood, mem_splitSlash_no_slash hmem⟩

theorem resolvePosix_idem (cwd p : String) :
    resolvePosix cwd (resolvePosix cwd p) = resolvePosix cwd p := by
  simp only [resolvePosix]
  set full := if p.data.head? = some '/' then p.data else cwd.data ++ '/' :: p.data with hfull
  set cs := normComps (splitSlash full) [] with hcs
  have hgood : ∀ g ∈ cs, (g ≠ [] ∧ g ≠ ['.'] ∧ g ≠ ['.', '.']) ∧ '/' ∉ g := by
    rw [hcs, hfull]
    exact resolvePosix_comps_good cwd p
  have hhead : (String.mk ('/' :: joinSlash cs)).data.head? = some '/' := rfl
  rw [if_pos hhead]
  have hsplit : splitSlash ('/' :: joinSlash cs) = [] :: splitSlash (joinSlash cs) := by
    simp [splitSlash]
  rw [hsplit]
  cases hcse : cs with
  | nil => rfl
  | cons c cs' =>
    rw [← hcse]
    have hjs : splitSlash (joinSlash cs) = cs :=
      splitSlash_joinSlash (by rw [hcse]; simp) (fun g hg => (hgood g hg).2)
    rw [hjs]
    have hskip : normComps ([] :: cs) [] = normComps cs [] := by
      simp [normComps]
    rw [hskip, normComps_of_good (fun c hc => (hgood c hc).1) []]
    simp

theorem resolvePosix_no_backslash {cwd p : String} (hp : '\\' ∉ p.data)
    (hcwd : '\\' ∉ cwd.data) : '\\' ∉ (resolvePosix cwd p).data := by
  intro hmem
  simp only [resolvePosix] at hmem
  rcases List.mem_cons.mp hmem with h | h
  · exact absurd h (by decide)
  · rcases mem_joinSlash h with h | ⟨g, hg, hcg⟩
    · exact absurd h (by decide)
    · rcases mem_normComps hg with h' | ⟨hmem', _⟩
      · simp at h'
      · have hfull := mem_splitSlash_subset hmem' '\\' hcg
        by_cases hh : p.data.head? = some '/'
        · rw [if_pos hh] at hfull
          exact hp hfull
        · rw [if_neg hh] at hfull
          rcases List.mem_append.mp hfull with h'' | h''
          · exact hcwd h''
          · rcases List.mem_cons.mp h'' with h3 | h3
            · exact absurd h3 (by decide)
            · exact hp h3

theorem stripTrailing_resolvePosix (cwd p : String) :
    stripTrailing (resolvePosix cwd p) = resolvePosix cwd p := by
  simp only [resolvePosix]
  set cs := normComps (splitSlash (if p.data.head? = some '/' then p.data
      else cwd.data ++ '/' :: p.data)) [] with hcs
  have hgood : ∀ g ∈ cs, (g ≠ [] ∧ g ≠ ['.'] ∧ g ≠ ['.', '.']) ∧ '/' ∉ g := by
    rw [hcs]
    exact resolvePosix_comps_good cwd p
  rw [stripTrailing]
  rw [if_neg]
  rintro ⟨hlen, hlast⟩
  have hdata : (String.mk ('/' :: joinSlash cs)).data = '/' :: joinSlash cs := rfl
  rw [hdata] at hlen hlast
  have hjoin_ne : joinSlash cs ≠ [] := by
    intro hj
    rw [hj] at hlen
    simp at hlen
  have hcs_ne : cs ≠ [] := by
    intro h0
    rw [h0] at hjoin_ne
    exact hjoin_ne rfl
  have hsplit : ('/' :: joinSlash cs) = ['/'] ++ joinSlash cs := rfl
  rw [hsplit, List.getLast?_append_of_ne_nil ['/'] hjoin_ne] at hlast
  exact joinSlash_getLast_ne_slash hcs_ne
    (fun g hg => ⟨(hgood g hg).1.1, (hgood g hg).2⟩) hlast rfl

theorem map_slash_eq_self {l : List Char} (h : '\\' ∉ l) :
    l.map (fun c => if c = '\\' then '/' else c) = l := by
  induction l with
  | nil => rfl
  | cons c rest ih =>
    have hc : c ≠ '\\' := fun hh => h (hh ▸ List.mem_cons_self c rest)
    have hr : '\\' ∉ rest := fun hh => h (List.mem_cons_of_mem c hh)
    simp [hc, ih hr]

theorem replaceBackslash_eq_self {s : String} (h : '\\' ∉ s.data) :
    replaceBackslash s = s := by
  simp only [replaceBackslash, map_slash_eq_self h]

theorem resolvePosix_ne_empty (cwd p : String) : resolvePosix cwd p ≠ "" := by
  intro h
  have := congrArg String.data h
  simp only [resolvePosix] at this
  exact absurd this (by simp)

/-- C9 counterexample: `normalizeWorkspacePath` is not idempotent.
On linux, with a `cwd` of `/` and a filesystem where resolution always
fails, the input `"/a\.."` resolves to itself (the backslash is an
ordinary character, so `"a\.."` is a single path component), the
backslash substitution then rewrites it to `"/a/.."` — creating a new
`".."` component — and a second normalization collapses that to
`"/"`. -/
theorem C9_normalize_not_idempotent_counterexample :
    normalizeWorkspacePath FS.trivialFS "/" "/a\\.." = "/a/.." ∧
    normalizeWorkspacePath FS.trivialFS "/"
      (normalizeWorkspacePath FS.trivialFS "/" "/a\\..") = "/" ∧
    normalizeWorkspacePath FS.trivialFS "/"
      (normalizeWorkspacePath FS.trivialFS "/" "/a\\..") ≠
      normalizeWorkspacePath FS.trivialFS "/" "/a\\.." := by
  refine ⟨by decide, by decide, by decide⟩

/-- C9 (amended): `normalizeWorkspacePath` is idempotent for every
path string free of backslashes (with a backslash-free `cwd`), under
a well-behaved filesystem (`GoodFS`: `realpathSync` results are
canonical and stable).  Idempotence can fail when the path contains a
backslash, because the backslash-to-slash substitution runs after
`path.resolve` and can create fresh `".."`/empty components (see the
counterexample). -/
theorem C9_normalize_idempotent_amended (fs : FS) (cwd p : String)
    (hp : '\\' ∉ p.data) (hcwd : '\\' ∉ cwd.data) (hfs : GoodFS fs cwd) :
    normalizeWorkspacePath fs cwd (normalizeWorkspacePath fs cwd p) =
      normalizeWorkspacePath fs cwd p := by
  by_cases hp0 : p = ""
  · subst hp0
    rfl
  · simp only [normalizeWorkspacePath, if_neg hp0]
    set R := resolvePosix cwd p with hR
    have hRb : replaceBackslash R = R :=
      replaceBackslash_eq_self (hR ▸ resolvePosix_no_backslash hp hcwd)
    rw [hRb]
    cases hrp : fs.realpath R with
    | none =>
      have hstrip : stripTrailing R = R := hR ▸ stripTrailing_resolvePosix cwd p
      rw [hstrip]
      have hRne : R ≠ "" := hR ▸ resolvePosix_ne_empty cwd p
      simp only [normalizeWorkspacePath, if_neg hRne]
      have hidem : resolvePosix cwd R = R := by
        rw [hR]
        exact resolvePosix_idem cwd p
      rw [hidem, hRb, hrp]
      exact hstrip
    | some r =>
      obtain ⟨hrr, hrb, hrres, hrstrip⟩ := hfs R r hrp
      dsimp only
      rw [hrb, hrstrip]
      by_cases hr0 : r = ""
      · subst hr0
        rfl
      · simp only [normalizeWorkspacePath, if_neg hr0]
        rw [hrres, hrb, hrr]
        show stripTrailing (replaceBackslash r) = r
        rw [hrb]
        exact hrstrip

/-- Witness for C9 (amended): idempotence at a concrete backslash-free
path on the filesystem where resolution always fails (for which
`GoodFS` holds vacuously). -/
theorem C9_normalize_idempotent_amended_witness :
    normalizeWorkspacePath FS.trivialFS "/"
      (normalizeWorkspacePath FS.trivialFS "/" "/a/b/../c") =
      normalizeWorkspacePath FS.trivialFS "/" "/a/b/../c" :=
  C9_normalize_idempotent_amended FS.trivialFS "/" "/a/b/../c" (by decide) (by decide)
    (fun _ r h => nomatch h)

/-! ## Broker helper lemmas: the shape of `handleDisconnection` -/

/-- For a registered socket, disconnection fails exactly the pending
requests of the peer's workspace (deleting them and emitting the
reject replies) and leaves `heap`/`nextRef` unchanged. -/
theorem handleDisconnection_fields (s : RouterState) (ws r : Nat) (ci : ClientInfo)
    (hc : lookupClientRef s ws = some (r, ci)) :
    (handleDisconnection s ws).1.pendingRequests =
      s.pendingRequests.filter (fun e => decide (e.2.sourceWorkspace ≠ ci.workspaceId)) ∧
    (handleDisconnection s ws).2 =
      (s.pendingRequests.filter fun e => decide (e.2.sourceWorkspace = ci.workspaceId)).map
        (fun e => (e.2.requesterWs,
          Msg.errorReply "Request failed: VS Code extension disconnected")) ∧
    (handleDisconnection s ws).1.heap = s.heap ∧
    (handleDisconnection s ws).1.nextRef = s.nextRef := by
  unfold handleDisconnection
  rw [hc]
  dsimp only
  repeat' split
  all_goals simp [failPendingRequestsForWorkspace]

/-- Disconnection of an unregistered socket is a no-op. -/
theorem handleDisconnection_of_none (s : RouterState) (ws : Nat)
    (hc : lookupClientRef s ws = none) : handleDisconnection s ws = (s, []) := by
  unfold handleDisconnection
  rw [hc]

/-- When a paired MCP server disconnects, the surviving VS Code
partner is put into the unmatched responder pool while the workspace
mapping keeps its `vscodeClient` reference (only the `mcpClient` side
is cleared). -/
theorem handleDisconnection_partner_of_mcp (s : RouterState) (ws r : Nat) (ci : ClientInfo)
    (wm : WorkspaceMapping) (pref : Nat) (p : ClientInfo)
    (hc : lookupClientRef s ws = some (r, ci))
    (hct : ci.clientType = ClientType.mcpServer)
    (hwm : alGet ci.workspaceId s.workspaces = some wm)
    (hpart : wm.vscodeClient = some pref)
    (hp : alGet pref s.heap = some p) :
    (handleDisconnection s ws).1.unmatchedVscodeClients =
      alSet p.sessionId pref s.unmatchedVscodeClients ∧
    (handleDisconnection s ws).1.workspaces =
      alSet ci.workspaceId { wm with mcpClient := none } s.workspaces := by
  unfold handleDisconnection
  rw [hc]
  dsimp only
  rw [hct]
  dsimp only
  rw [hwm]
  dsimp only
  rw [hpart]
  dsimp only
  rw [hp]
  dsimp only
  rw [alGet_alSet_self]
  dsimp only
  rw [if_neg (by simp [hpart])]
  simp [failPendingRequestsForWorkspace]

/-- When a paired VS Code extension disconnects, the surviving MCP
partner is put into the unmatched requester pool while the workspace
mapping keeps its `mcpClient` reference (only the `vscodeClient` side
is cleared). -/
theorem handleDisconnection_partner_of_vscode (s : RouterState) (ws r : Nat) (ci : ClientInfo)
    (wm : WorkspaceMapping) (pref : Nat) (p : ClientInfo)
    (hc : lookupClientRef s ws = some (r, ci))
    (hct : ci.clientType = ClientType.vscodeExtension)
    (hwm : alGet ci.workspaceId s.workspaces = some wm)
    (hpart : wm.mcpClient = some pref)
    (hp : alGet pref s.heap = some p) :
    (handleDisconnection s ws).1.unmatchedMcpServers =
      alSet p.sessionId pref s.unmatchedMcpServers ∧
    (handleDisconnection s ws).1.workspaces =
      alSet ci.workspaceId { wm with vscodeClient := none } s.workspaces := by
  unfold handleDisconnection
  rw [hc]
  dsimp only
  rw [hct]
  dsimp only
  rw [hwm]
  dsimp only
  rw [hpart]
  dsimp only
  rw [hp]
  dsimp only
  rw [alGet_alSet_self]
  dsimp only
  rw [if_neg (by simp [hpart])]
  simp [failPendingRequestsForWorkspace]

/-! ## C1 — the session-in-at-most-one-place invariant -/

/-- C1 counterexample: after the reachable trace `register`(requester,
socket 1), `register`(responder, socket 2), accepted sync commit,
`disconnect`(socket 1), the surviving responder session `v1` sits in
the unmatched responder pool **and** is still referenced by the
`WorkspacePairing` for `/w` (whose `vscodeClient` side was never
cleared), while its peer is still connected — so a connected peer's
sessionId appears in two places at once, and the partner moved back to
its pool is still referenced by a `WorkspacePairing`. -/
theorem C1_partner_in_pool_and_pairing_counterexample :
    alGet "v1" (handleDisconnection pairTrace3 1).1.unmatchedVscodeClients = some 1 ∧
    alGet "/w" (handleDisconnection pairTrace3 1).1.workspaces =
      some { mcpClient := none, vscodeClient := some 1 } ∧
    lookupClient (handleDisconnection pairTrace3 1).1 2 =
      some { ws := 2, clientType := ClientType.vscodeExtension, workspaceId := "/w",
             sessionId := "v1", connectedAt := 0 } := by
  refine ⟨by decide, by decide, by decide⟩

/-- C1 (amended): when one half of a pairing disconnects (here: the
requester side; the responder side is symmetric), the surviving
partner is inserted into its kind's UnmatchedPool **but remains
referenced by the WorkspacePairing** — only the disconnected peer's
own side of the mapping is cleared — so a sessionId can appear in a
WorkspacePairing and its kind's UnmatchedPool at the same time. -/
theorem C1_disconnect_keeps_partner_in_pairing_amended (s : RouterState) (ws r : Nat)
    (ci : ClientInfo) (wm : WorkspaceMapping) (pref : Nat) (p : ClientInfo)
    (hc : lookupClientRef s ws = some (r, ci))
    (hct : ci.clientType = ClientType.mcpServer)
    (hwm : alGet ci.workspaceId s.workspaces = some wm)
    (hpart : wm.vscodeClient = some pref)
    (hp : alGet pref s.heap = some p) :
    alGet p.sessionId (handleDisconnection s ws).1.unmatchedVscodeClients = some pref ∧
    alGet ci.workspaceId (handleDisconnection s ws).1.workspaces =
      some { wm with mcpClient := none } := by
  obtain ⟨h1, h2⟩ := handleDisconnection_partner_of_mcp s ws r ci wm pref p hc hct hwm hpart hp
  rw [h1, h2, alGet_alSet_self, alGet_alSet_self]
  exact ⟨rfl, rfl⟩

/-- Witness for C1 (amended), at the concrete paired trace. -/
theorem C1_disconnect_keeps_partner_in_pairing_amended_witness :
    alGet "v1" (handleDisconnection pairTrace3 1).1.unmatchedVscodeClients = some 1 ∧
    alGet "/w" (handleDisconnection pairTrace3 1).1.workspaces =
      some { mcpClient := none, vscodeClient := some 1 } :=
  C1_disconnect_keeps_partner_in_pairing_amended pairTrace3 1 0
    { ws := 1, clientType := ClientType.mcpServer, workspaceId := "/w",
      sessionId := "m1", connectedAt := 0 }
    { mcpClient := some 0, vscodeClient := some 1 } 1
    { ws := 2, clientType := ClientType.vscodeExtension, workspaceId := "/w",
      sessionId := "v1", connectedAt := 0 }
    (by decide) (by decide) (by decide) (by decide) (by decide)

/-! ## C5 — failing pending requests on disconnect and orphan sweep -/

/-- C5 counterexample: on the reachable trace where the pairing for
`/w` is committed and the requester (socket 1) has submitted request
`r1`, disconnecting the **requester** itself immediately fails `r1`:
the pending request is deleted and the reject reply is emitted by
`disconnect`, not left for the orphan sweep — refuting "its
PendingRequests are NOT failed by the disconnect operation itself". -/
theorem C5_requester_disconnect_fails_counterexample :
    alGet "r1" pendingTrace.pendingRequests =
      some { requesterWs := 1, sourceWorkspace := "/w" } ∧
    lookupClient pendingTrace 1 =
      some { ws := 1, clientType := ClientType.mcpServer, workspaceId := "/w",
             sessionId := "m1", connectedAt := 0 } ∧
    (handleDisconnection pendingTrace 1).1.pendingRequests = [] ∧
    (handleDisconnection pendingTrace 1).2 =
      [(1, Msg.errorReply "Request failed: VS Code extension disconnected")] := by
  refine ⟨by decide, by decide, by decide, by decide⟩

/-- C5 (amended): disconnecting a peer of **either** kind immediately
fails every PendingRequest whose `sourceWorkspace` equals the
disconnecting peer's workspace (the request is removed and the reject
reply emitted); and the periodic orphan sweep fails exactly the
pending requests whose `sourceWorkspace` has no WorkspacePairing,
with the reason "Workspace no longer available". -/
theorem C5_disconnect_and_orphan_sweep_amended :
    (∀ (s : RouterState) (ws r : Nat) (ci : ClientInfo),
       lookupClientRef s ws = some (r, ci) →
       (∀ e ∈ (handleDisconnection s ws).1.pendingRequests,
          e.2.sourceWorkspace ≠ ci.workspaceId) ∧
       (∀ e ∈ s.pendingRequests, e.2.sourceWorkspace = ci.workspaceId →
          (e.2.requesterWs, Msg.errorReply "Request failed: VS Code extension disconnected")
            ∈ (handleDisconnection s ws).2)) ∧
    (∀ s : RouterState,
       (∀ e ∈ s.pendingRequests, alGet e.2.sourceWorkspace s.workspaces = none →
          e ∉ (cleanupOrphanedRequests s).1.pendingRequests ∧
          (e.2.requesterWs, Msg.errorReply "Request failed: Workspace no longer available")
            ∈ (cleanupOrphanedRequests s).2) ∧
       (∀ e ∈ s.pendingRequests, (alGet e.2.sourceWorkspace s.workspaces).isSome →
          e ∈ (cleanupOrphanedRequests s).1.pendingRequests)) := by
  constructor
  · intro s ws r ci hc
    obtain ⟨h1, h2, _, _⟩ := handleDisconnection_fields s ws r ci hc
    constructor
    · intro e he
      rw [h1] at he
      have := (List.mem_filter.mp he).2
      simpa using this
    · intro e he hw
      rw [h2]
      exact List.mem_map.mpr ⟨e, List.mem_filter.mpr ⟨he, by simpa using hw⟩, rfl⟩
  · intro s
    constructor
    · intro e he hnone
      constructor
      · intro hmem
        simp only [cleanupOrphanedRequests] at hmem
        have := (List.mem_filter.mp hmem).2
        rw [hnone] at this
        simp at this
      · simp only [cleanupOrphanedRequests]
        exact List.mem_map.mpr
          ⟨e, List.mem_filter.mpr ⟨he, by simp [hnone]⟩, rfl⟩
    · intro e he hsome
      simp only [cleanupOrphanedRequests]
      exact List.mem_filter.mpr ⟨he, by simpa using hsome⟩

/-- Witness for C5 (amended): at the concrete paired trace with one
pending request, the requester's disconnect emits the reject reply;
and an orphaned request at a concrete state with no workspaces is
failed by the sweep. -/
theorem C5_disconnect_and_orphan_sweep_amended_witness :
    (1, Msg.errorReply "Request failed: VS Code extension disconnected")
      ∈ (handleDisconnection pendingTrace 1).2 ∧
    (7, Msg.errorReply "Request failed: Workspace no longer available")
      ∈ (cleanupOrphanedRequests
          { RouterState.initial with pendingRequests :=
              [("rx", { requesterWs := 7, sourceWorkspace := "/gone" })] }).2 :=
  ⟨(C5_disconnect_and_orphan_sweep_amended.1 pendingTrace 1 0
      { ws := 1, clientType := ClientType.mcpServer, workspaceId := "/w",
        sessionId := "m1", connectedAt := 0 } (by decide)).2
      ("r1", { requesterWs := 1, sourceWorkspace := "/w" }) (by decide) (by decide),
   ((C5_disconnect_and_orphan_sweep_amended.2
      { RouterState.initial with pendingRequests :=
          [("rx", { requesterWs := 7, sourceWorkspace := "/gone" })] }).1
      ("rx", { requesterWs := 7, sourceWorkspace := "/gone" }) (by decide) (by decide)).2⟩

/-! ## C2 — commit-once pairing on the first accepted sync proposal -/

/-- C2: on the first accepted sync proposal naming an unmatched
requester session and an unmatched responder session, the broker
creates/overwrites the WorkspacePairing for the accepted final
workspace id with exactly those two peers, removes both sessions from
their UnmatchedPools, and sends both peers `workspace-sync-complete`
carrying the final workspace id; and a later acceptance for the same
two sessions leaves the broker state unchanged and sends nothing
(commit-once). -/
theorem C2_sync_commit_once (s : RouterState) (ws : Nat) (mSid vSid fw : String)
    (mref vref : Nat) (mcp vsc : ClientInfo)
    (hm : alGet mSid s.unmatchedMcpServers = some mref)
    (hv : alGet vSid s.unmatchedVscodeClients = some vref)
    (hmh : alGet mref s.heap = some mcp)
    (hvh : alGet vref s.heap = some vsc)
    (hfw : fw ≠ "") :
    alGet fw (handleWorkspaceSyncResponse s ws vSid mSid true fw).1.workspaces =
      some { mcpClient := some mref, vscodeClient := some vref } ∧
    alGet mSid (handleWorkspaceSyncResponse s ws vSid mSid true fw).1.unmatchedMcpServers =
      none ∧
    alGet vSid (handleWorkspaceSyncResponse s ws vSid mSid true fw).1.unmatchedVscodeClients =
      none ∧
    (handleWorkspaceSyncResponse s ws vSid mSid true fw).2 =
      [(mcp.ws, Msg.syncComplete fw mSid vSid),
       (vsc.ws, Msg.syncComplete fw mSid vSid)] ∧
    (∀ ws2 : Nat,
      handleWorkspaceSyncResponse (handleWorkspaceSyncResponse s ws vSid mSid true fw).1
        ws2 vSid mSid true fw =
      ((handleWorkspaceSyncResponse s ws vSid mSid true fw).1, [])) := by
  unfold handleWorkspaceSyncResponse
  rw [if_neg (by simp), if_neg hfw, hm, hv]
  dsimp only
  rw [hmh, hvh]
  dsimp only
  refine ⟨?_, ?_, ?_, rfl, ?_⟩
  · rw [alGet_alSet_self]
  · rw [alGet_alDel_self]
  · rw [alGet_alDel_self]
  · intro ws2
    rw [if_neg (by simp), if_neg hfw]
    rw [alGet_alDel_self]

/-- Witness for C2, at the concrete trace with one unmatched requester
(`m1`) and one unmatched responder (`v1`): the commit notifies both
peers, empties the responder pool, and a repeated acceptance is a
no-op. -/
theorem C2_sync_commit_once_witness :
    alGet "v1" (handleWorkspaceSyncResponse pairTrace2 1 "v1" "m1" true
      "/w").1.unmatchedVscodeClients = none ∧
    (handleWorkspaceSyncResponse pairTrace2 1 "v1" "m1" true "/w").2 =
      [(1, Msg.syncComplete "/w" "m1" "v1"), (2, Msg.syncComplete "/w" "m1" "v1")] ∧
    handleWorkspaceSyncResponse
      (handleWorkspaceSyncResponse pairTrace2 1 "v1" "m1" true "/w").1 5 "v1" "m1" true "/w" =
      ((handleWorkspaceSyncResponse pairTrace2 1 "v1" "m1" true "/w").1, []) :=
  ⟨(C2_sync_commit_once pairTrace2 1 "m1" "v1" "/w" 0 1
      { ws := 1, clientType := ClientType.mcpServer, workspaceId := "/w",
        sessionId := "m1", connectedAt := 0 }
      { ws := 2, clientType := ClientType.vscodeExtension, workspaceId := "/w",
        sessionId := "v1", connectedAt := 0 }
      (by decide) (by decide) (by decide) (by decide) (by decide)).2.2.1,
   (C2_sync_commit_once pairTrace2 1 "m1" "v1" "/w" 0 1
      { ws := 1, clientType := ClientType.mcpServer, workspaceId := "/w",
        sessionId := "m1", connectedAt := 0 }
      { ws := 2, clientType := ClientType.vscodeExtension, workspaceId := "/w",
        sessionId := "v1", connectedAt := 0 }
      (by decide) (by decide) (by decide) (by decide) (by decide)).2.2.2.1,
   (C2_sync_commit_once pairTrace2 1 "m1" "v1" "/w" 0 1
      { ws := 1, clientType := ClientType.mcpServer, workspaceId := "/w",
        sessionId := "m1", connectedAt := 0 }
      { ws := 2, clientType := ClientType.vscodeExtension, workspaceId := "/w",
        sessionId := "v1", connectedAt := 0 }
      (by decide) (by decide) (by decide) (by decide) (by decide)).2.2.2.2 5⟩

/-! ## C4 — at most one response resolves a pending request -/

/-- C4: the first response matching a pending request (sent by the
registered responder of the request's `sourceWorkspace`) forwards its
payload to the original requester's socket and removes the
PendingRequest; afterwards, a response carrying the same `requestId` —
from any socket, with any payload — leaves the broker state unchanged
and forwards no `response` for that id (it is ignored with a
warning). -/
theorem C4_response_resolves_once (s : RouterState) (ws : Nat) (rid resp : String)
    (ci : ClientInfo) (pr : PendingRequest)
    (hc : lookupClient s ws = some ci)
    (hct : ci.clientType = ClientType.vscodeExtension)
    (hrid : rid ≠ "")
    (hpr : alGet rid s.pendingRequests = some pr)
    (hsw : pr.sourceWorkspace = ci.workspaceId) :
    (handleResponse s ws rid resp).1 =
      { s with pendingRequests := alDel rid s.pendingRequests } ∧
    (handleResponse s ws rid resp).2 = [(pr.requesterWs, Msg.response rid resp)] ∧
    (∀ (ws2 : Nat) (resp2 : String),
      (handleResponse (handleResponse s ws rid resp).1 ws2 rid resp2).1 =
        (handleResponse s ws rid resp).1 ∧
      ∀ x ∈ (handleResponse (handleResponse s ws rid resp).1 ws2 rid resp2).2,
        ∀ r' : String, x.2 ≠ Msg.response rid r') := by
  have hmain : handleResponse s ws rid resp =
      ({ s with pendingRequests := alDel rid s.pendingRequests },
       [(pr.requesterWs, Msg.response rid resp)]) := by
    unfold handleResponse
    rw [hc]
    dsimp only
    rw [if_neg (by simp [hct]), if_neg hrid, hpr]
    dsimp only
    rw [if_neg (by simp [hsw])]
  refine ⟨by rw [hmain], by rw [hmain], ?_⟩
  intro ws2 resp2
  rw [hmain]
  dsimp only
  unfold handleResponse
  cases h2 : lookupClient { s with pendingRequests := alDel rid s.pendingRequests } ws2 with
  | none =>
    dsimp only
    refine ⟨rfl, ?_⟩
    intro x hx r'
    simp only [List.mem_singleton] at hx
    subst hx
    simp
  | some ci2 =>
    dsimp only
    by_cases ht2 : ci2.clientType ≠ ClientType.vscodeExtension
    · rw [if_pos ht2]
      refine ⟨rfl, ?_⟩
      intro x hx r'
      simp only [List.mem_singleton] at hx
      subst hx
      simp
    · rw [if_neg ht2, if_neg hrid]
      have : alGet rid (alDel rid s.pendingRequests) = none := alGet_alDel_self rid _
      rw [this]
      exact ⟨rfl, by intro x hx r'; simp at hx⟩

/-- Witness for C4, at the concrete paired trace with pending request
`r1`: the responder's answer is forwarded to the requester's socket,
and a repeated response for `r1` leaves the state unchanged. -/
theorem C4_response_resolves_once_witness :
    (handleResponse pendingTrace 2 "r1" "answer").2 = [(1, Msg.response "r1" "answer")] ∧
    (handleResponse (handleResponse pendingTrace 2 "r1" "answer").1 2 "r1" "again").1 =
      (handleResponse pendingTrace 2 "r1" "answer").1 :=
  ⟨(C4_response_resolves_once pendingTrace 2 "r1" "answer"
      { ws := 2, clientType := ClientType.vscodeExtension, workspaceId := "/w",
        sessionId := "v1", connectedAt := 0 }
      { requesterWs := 1, sourceWorkspace := "/w" }
      (by decide) (by decide) (by decide) (by decide) (by decide)).2.1,
   ((C4_response_resolves_once pendingTrace 2 "r1" "answer"
      { ws := 2, clientType := ClientType.vscodeExtension, workspaceId := "/w",
        sessionId := "v1", connectedAt := 0 }
      { requesterWs := 1, sourceWorkspace := "/w" }
      (by decide) (by decide) (by decide) (by decide) (by decide)).2.2 2 "again").1⟩

/-! ## C3 — who receives the sync proposals on registration -/

/-- C3 counterexample: with one unmatched responder (`v1` on socket
1), a requester registering on socket 2 triggers proposals — but every
message of that registration (the sync proposal included) is sent to
socket 2, the **requester itself**; the unmatched responder on socket
1 receives nothing, refuting "the proposals are delivered to the
unmatched responders" when a requester registers. -/
theorem C3_proposals_to_requester_counterexample :
    alGet "v1" vscFirstTrace.unmatchedVscodeClients = some 0 ∧
    lookupClient vscFirstTrace 1 =
      some { ws := 1, clientType := ClientType.vscodeExtension, workspaceId := "/w",
             sessionId := "v1", connectedAt := 0 } ∧
    mcpSecondReg.2 =
      [(2, Msg.syncRequest "/w" "v1" "/w" "m1"), (2, Msg.registerAck "m1" "/w")] := by
  refine ⟨by decide, by decide, by decide⟩

/-- C3 (amended): the broker's sync proposals always go to
requester-side (MCP server) sockets.  When a responder registers while
the requester pool is non-empty, **every unmatched requester**
receives a `workspace-sync-request` carrying both sides' normalized
workspace and session ids — as the claim states.  When a requester
registers while the responder pool is non-empty, the proposals (one
per unmatched responder, carrying both sides' ids) are all delivered
to the **newly registered requester's own socket**, not to the
responders. -/
theorem C3_registration_proposals_amended :
    (∀ (fs : FS) (cwd : String) (s : RouterState) (ws : Nat)
       (wid sid gen : String) (now : Nat) (sid' : String) (mref : Nat) (mcp : ClientInfo),
      alGet ws s.clients = none → wid ≠ "" → sid ≠ "" →
      (sid', mref) ∈ s.unmatchedMcpServers →
      alGet mref s.heap = some mcp →
      mref ≠ s.nextRef →
      (mcp.ws, Msg.syncRequest (normalizeWorkspacePath fs cwd wid) sid
          mcp.workspaceId mcp.sessionId) ∈
        (handleRegistration fs cwd s ws (some ClientType.vscodeExtension) (some wid)
          (some sid) gen now).2) ∧
    (∀ (fs : FS) (cwd : String) (s : RouterState) (ws : Nat)
       (wid sid gen : String) (now : Nat) (sid' : String) (vref : Nat) (vsc : ClientInfo),
      alGet ws s.clients = none → wid ≠ "" → sid ≠ "" →
      (sid', vref) ∈ s.unmatchedVscodeClients →
      alGet vref s.heap = some vsc →
      vref ≠ s.nextRef →
      (ws, Msg.syncRequest vsc.workspaceId vsc.sessionId
          (normalizeWorkspacePath fs cwd wid) sid) ∈
        (handleRegistration fs cwd s ws (some ClientType.mcpServer) (some wid)
          (some sid) gen now).2) ∧
    (∀ (fs : FS) (cwd : String) (s : RouterState) (ws : Nat)
       (wid sid gen : String) (now : Nat),
      alGet ws s.clients = none → wid ≠ "" → sid ≠ "" →
      ∀ x ∈ (handleRegistration fs cwd s ws (some ClientType.mcpServer) (some wid)
          (some sid) gen now).2,
        (∃ a b c d, x.2 = Msg.syncRequest a b c d) → x.1 = ws) := by
  refine ⟨?_, ?_, ?_⟩
  · intro fs cwd s ws wid sid gen now sid' mref mcp hws hwid hsid hmem hmh hrefne
    have hdn : handleDisconnection s ws = (s, []) :=
      handleDisconnection_of_none s ws (by simp [lookupClientRef, hws])
    unfold handleRegistration
    dsimp only
    rw [if_neg hwid, if_neg hsid, hdn]
    dsimp only
    unfold initiateWorkspaceCoordination
    rw [alGet_alSet_self]
    dsimp only
    rw [if_neg (List.ne_nil_of_mem hmem)]
    refine List.mem_append_left _ (List.mem_append_right _ ?_)
    refine List.mem_filterMap.mpr ⟨(sid', mref), hmem, ?_⟩
    dsimp only
    rw [alGet_alSet_ne _ _ (Ne.symm hrefne), hmh]
    rfl
  · intro fs cwd s ws wid sid gen now sid' vref vsc hws hwid hsid hmem hvh hrefne
    have hdn : handleDisconnection s ws = (s, []) :=
      handleDisconnection_of_none s ws (by simp [lookupClientRef, hws])
    unfold handleRegistration
    dsimp only
    rw [if_neg hwid, if_neg hsid, hdn]
    dsimp only
    unfold initiateWorkspaceCoordinationForMcp
    rw [alGet_alSet_self]
    dsimp only
    rw [if_neg (List.ne_nil_of_mem hmem)]
    refine List.mem_append_left _ (List.mem_append_right _ ?_)
    refine List.mem_filterMap.mpr ⟨(sid', vref), hmem, ?_⟩
    dsimp only
    rw [alGet_alSet_ne _ _ (Ne.symm hrefne), hvh]
    rfl
  · intro fs cwd s ws wid sid gen now hws hwid hsid
    have hdn : handleDisconnection s ws = (s, []) :=
      handleDisconnection_of_none s ws (by simp [lookupClientRef, hws])
    unfold handleRegistration
    dsimp only
    rw [if_neg hwid, if_neg hsid, hdn]
    dsimp only
    intro x hx hsync
    rcases List.mem_append.mp hx with hx1 | hx2
    · rcases List.mem_append.mp hx1 with hx0 | hxc
      · simp at hx0
      · unfold initiateWorkspaceCoordinationForMcp at hxc
        rw [alGet_alSet_self] at hxc
        dsimp only at hxc
        by_cases hpool : s.unmatchedVscodeClients = []
        · rw [if_pos hpool] at hxc
          simp at hxc
        · rw [if_neg hpool] at hxc
          obtain ⟨e, _, hfe⟩ := List.mem_filterMap.mp hxc
          cases hg : alGet e.2 (alSet s.nextRef
              { ws := ws, clientType := ClientType.mcpServer,
                workspaceId := normalizeWorkspacePath fs cwd wid,
                sessionId := sid, connectedAt := now } s.heap) with
          | none =>
            rw [hg] at hfe
            simp at hfe
          | some vsc2 =>
            rw [hg] at hfe
            have hfx : ((ws : Nat), Msg.syncRequest vsc2.workspaceId vsc2.sessionId
                (normalizeWorkspacePath fs cwd wid) sid) = x := by simpa using hfe
            rw [← hfx]
    · simp only [List.mem_singleton] at hx2
      subst hx2
      obtain ⟨a, b, c, d, habs⟩ := hsync
      simp at habs

/-- Witness for C3 (amended): on the concrete traces — the unmatched
requester (socket 1) receives the proposal when the responder
registers; and when a requester registers on socket 2 with an
unmatched responder present, the proposal goes to socket 2 itself. -/
theorem C3_registration_proposals_amended_witness :
    (1, Msg.syncRequest "/w" "v1" "/w" "m1") ∈
      (handleRegistration FS.trivialFS "/" pairTrace1 2
        (some ClientType.vscodeExtension) (some "/w") (some "v1") "g2" 0).2 ∧
    (2, Msg.syncRequest "/w" "v1" "/w" "m1") ∈ mcpSecondReg.2 :=
  ⟨C3_registration_proposals_amended.1 FS.trivialFS "/" pairTrace1 2 "/w" "v1" "g2" 0
      "m1" 0
      { ws := 1, clientType := ClientType.mcpServer, workspaceId := "/w",
        sessionId := "m1", connectedAt := 0 }
      (by decide) (by decide) (by decide) (by decide) (by decide) (by decide),
   C3_registration_proposals_amended.2.1 FS.trivialFS "/" vscFirstTrace 2 "/w" "m1" "g2" 0
      "v1" 0
      { ws := 1, clientType := ClientType.vscodeExtension, workspaceId := "/w",
        sessionId := "v1", connectedAt := 0 }
      (by decide) (by decide) (by decide) (by decide) (by decide) (by decide)⟩

/-! ## C10 — re-registration first runs the full disconnect path -/

/-- C10: a second `register` on an already-registered socket first
runs the full disconnect path for the old registration before the new
one is inserted: every PendingRequest whose `sourceWorkspace` equals
the old registration's workspace is rejected immediately (removed,
with the reject reply among the emitted messages), the old
registration's pairing partner (when present, of either kind) is put
back into that partner's UnmatchedPool, and only then is the new
registration installed for the socket. -/
theorem C10_reregistration_runs_disconnect (fs : FS) (cwd : String) (s : RouterState)
    (ws oref : Nat) (oldCi : ClientInfo) (ct : ClientType) (wid sid gen : String) (now : Nat)
    (hc : lookupClientRef s ws = some (oref, oldCi))
    (hwid : wid ≠ "") (hsid : sid ≠ "") :
    (∀ e ∈ (handleRegistration fs cwd s ws (some ct) (some wid) (some sid) gen
        now).1.pendingRequests,
       e.2.sourceWorkspace ≠ oldCi.workspaceId) ∧
    (∀ e ∈ s.pendingRequests, e.2.sourceWorkspace = oldCi.workspaceId →
       (e.2.requesterWs, Msg.errorReply "Request failed: VS Code extension disconnected")
         ∈ (handleRegistration fs cwd s ws (some ct) (some wid) (some sid) gen now).2) ∧
    (oldCi.clientType = ClientType.mcpServer →
      ∀ (wm : WorkspaceMapping) (pref : Nat) (p : ClientInfo),
        alGet oldCi.workspaceId s.workspaces = some wm →
        wm.vscodeClient = some pref →
        alGet pref s.heap = some p →
        p.sessionId ≠ sid →
        alGet p.sessionId (handleRegistration fs cwd s ws (some ct) (some wid) (some sid)
          gen now).1.unmatchedVscodeClients = some pref) ∧
    (oldCi.clientType = ClientType.vscodeExtension →
      ∀ (wm : WorkspaceMapping) (pref : Nat) (p : ClientInfo),
        alGet oldCi.workspaceId s.workspaces = some wm →
        wm.mcpClient = some pref →
        alGet pref s.heap = some p →
        p.sessionId ≠ sid →
        alGet p.sessionId (handleRegistration fs cwd s ws (some ct) (some wid) (some sid)
          gen now).1.unmatchedMcpServers = some pref) ∧
    lookupClient (handleRegistration fs cwd s ws (some ct) (some wid) (some sid) gen now).1
      ws =
      some { ws := ws, clientType := ct, workspaceId := normalizeWorkspacePath fs cwd wid,
             sessionId := sid, connectedAt := now } := by
  obtain ⟨h1, h2, h3, h4⟩ := handleDisconnection_fields s ws oref oldCi hc
  rcases hdef : handleDisconnection s ws with ⟨s1, msgs0⟩
  rw [hdef] at h1 h2 h3 h4
  dsimp only at h1 h2 h3 h4
  unfold handleRegistration
  dsimp only
  rw [if_neg hwid, if_neg hsid, hdef]
  dsimp only
  cases ct with
  | mcpServer =>
    dsimp only
    refine ⟨?_, ?_, ?_, ?_, ?_⟩
    · intro e he
      rw [h1] at he
      have := (List.mem_filter.mp he).2
      simpa using this
    · intro e he hw
      refine List.mem_append_left _ (List.mem_append_left _ ?_)
      rw [h2]
      exact List.mem_map.mpr ⟨e, List.mem_filter.mpr ⟨he, by simpa using hw⟩, rfl⟩
    · intro hct wm pref p hwm hpart hp hpsid
      obtain ⟨hpool, _⟩ :=
        handleDisconnection_partner_of_mcp s ws oref oldCi wm pref p hc hct hwm hpart hp
      rw [hdef] at hpool
      rw [hpool, alGet_alSet_self]
    · intro hct wm pref p hwm hpart hp hpsid
      obtain ⟨hpool, _⟩ :=
        handleDisconnection_partner_of_vscode s ws oref oldCi wm pref p hc hct hwm hpart hp
      rw [hdef] at hpool
      rw [alGet_alSet_ne _ _ (Ne.symm hpsid), hpool, alGet_alSet_self]
    · simp [lookupClient, alGet_alSet_self]
  | vscodeExtension =>
    dsimp only
    refine ⟨?_, ?_, ?_, ?_, ?_⟩
    · intro e he
      rw [h1] at he
      have := (List.mem_filter.mp he).2
      simpa using this
    · intro e he hw
      refine List.mem_append_left _ (List.mem_append_left _ ?_)
      rw [h2]
      exact List.mem_map.mpr ⟨e, List.mem_filter.mpr ⟨he, by simpa using hw⟩, rfl⟩
    · intro hct wm pref p hwm hpart hp hpsid
      obtain ⟨hpool, _⟩ :=
        handleDisconnection_partner_of_mcp s ws oref oldCi wm pref p hc hct hwm hpart hp
      rw [hdef] at hpool
      rw [alGet_alSet_ne _ _ (Ne.symm hpsid), hpool, alGet_alSet_self]
    · intro hct wm pref p hwm hpart hp hpsid
      obtain ⟨hpool, _⟩ :=
        handleDisconnection_partner_of_vscode s ws oref oldCi wm pref p hc hct hwm hpart hp
      rw [hdef] at hpool
      rw [hpool, alGet_alSet_self]
    · simp [lookupClient, alGet_alSet_self]

/-- Witness for C10, at the concrete paired trace with pending request
`r1`: re-registering the requester socket rejects `r1`, returns the
responder partner to its pool, and installs the new registration. -/
theorem C10_reregistration_runs_disconnect_witness :
    (1, Msg.errorReply "Request failed: VS Code extension disconnected") ∈
      (handleRegistration FS.trivialFS "/" pendingTrace 1 (some ClientType.mcpServer)
        (some "/w2") (some "m2") "g3" 5).2 ∧
    alGet "v1" (handleRegistration FS.trivialFS "/" pendingTrace 1
        (some ClientType.mcpServer) (some "/w2") (some "m2") "g3"
        5).1.unmatchedVscodeClients = some 1 ∧
    lookupClient (handleRegistration FS.trivialFS "/" pendingTrace 1
        (some ClientType.mcpServer) (some "/w2") (some "m2") "g3" 5).1 1 =
      some { ws := 1, clientType := ClientType.mcpServer,
             workspaceId := normalizeWorkspacePath FS.trivialFS "/" "/w2",
             sessionId := "m2", connectedAt := 5 } :=
  ⟨(C10_reregistration_runs_disconnect FS.trivialFS "/" pendingTrace 1 0
      { ws := 1, clientType := ClientType.mcpServer, workspaceId := "/w",
        sessionId := "m1", connectedAt := 0 }
      ClientType.mcpServer "/w2" "m2" "g3" 5 (by decide) (by decide) (by decide)).2.1
      ("r1", { requesterWs := 1, sourceWorkspace := "/w" }) (by decide) (by decide),
   (C10_reregistration_runs_disconnect FS.trivialFS "/" pendingTrace 1 0
      { ws := 1, clientType := ClientType.mcpServer, workspaceId := "/w",
        sessionId := "m1", connectedAt := 0 }
      ClientType.mcpServer "/w2" "m2" "g3" 5 (by decide) (by decide) (by decide)).2.2.1
      (by decide)
      { mcpClient := some 0, vscodeClient := some 1 } 1
      { ws := 2, clientType := ClientType.vscodeExtension, workspaceId := "/w",
        sessionId := "v1", connectedAt := 0 }
      (by decide) (by decide) (by decide) (by decide),
   (C10_reregistration_runs_disconnect FS.trivialFS "/" pendingTrace 1 0
      { ws := 1, clientType := ClientType.mcpServer, workspaceId := "/w",
        sessionId := "m1", connectedAt := 0 }
      ClientType.mcpServer "/w2" "m2" "g3" 5 (by decide) (by decide) (by decide)).2.2.2.2⟩
